import Mathlib

/-!
Verification of the static-site generator in `scripts/build.mjs` and the dev
server in `scripts/dev.mjs` (repository `altman-artists`).

The build pipeline is embedded shallowly: JavaScript strings become Lean
`String`, JSON records become structures with `Option String` fields (a `none`
field models an absent/undefined property, and JS truthiness is modelled
explicitly), and the filesystem output directory becomes an association list
from relative path to file content.  The build itself becomes a pure function
from a `BuildInput` (the parsed content files, the source asset trees and the
environment variables) and an initial output-directory state to a final state
paired with an optional error, threading the state in the exact statement
order of `buildSite` in the source.

String operations from the JS runtime (`replaceAll` with one-character
patterns, `trim`, `startsWith`, `endsWith`, slash stripping) are implemented
over `List Char` so that every definition reduces in the kernel.
-/

namespace AltmanArtists

/-- JS truthiness of an optional string value: `undefined`/absent and the
empty string are falsy, every other string is truthy. -/
def truthyS (o : Option String) : Bool :=
  match o with
  | none => false
  | some s => !s.isEmpty

/-- JS string interpolation of a possibly-undefined value: `String(undefined)`
is the string `undefined`. -/
def jsShow (o : Option String) : String :=
  match o with
  | none => "undefined"
  | some s => s

/-- JS `a || b` on strings: the left operand unless it is falsy (empty). -/
def jsOr (a b : String) : String :=
  if a.isEmpty then b else a

/-- JS `a ?? b` on an optional (environment/config) string: the left operand
unless it is nullish. -/
def nullishOr (a b : Option String) : Option String :=
  match a with
  | some v => some v
  | none => b

/-- Character-list version of JS `String.prototype.replaceAll` for a
one-character pattern `p`, replacing every occurrence by `r`. -/
def replaceAllC (p : Char) (r : List Char) : List Char → List Char
  | [] => []
  | c :: rest => (if c = p then r else [c]) ++ replaceAllC p r rest

/-- The apostrophe character, U+0027. -/
def aposChar : Char := Char.ofNat 39

/-- Model of `escapeHtml` from `scripts/build.mjs` lines 10-17 on character
lists: the five `replaceAll` calls in source order, ampersand first. -/
def escapeList (cs : List Char) : List Char :=
  replaceAllC aposChar ("&#39;").data
    (replaceAllC '"' ("&quot;").data
      (replaceAllC '>' ("&gt;").data
        (replaceAllC '<' ("&lt;").data
          (replaceAllC '&' ("&amp;").data cs))))

/-- Model of `escapeHtml` from `scripts/build.mjs` lines 10-17.  Call sites in
the build only ever pass string values, so the `String(value)` coercion is the
identity here (call sites that may pass `undefined` go through `jsShow`). -/
def escapeHtml (s : String) : String :=
  String.mk (escapeList s.data)

/-- Modelled from the spec: the intended per-character entity map — each of
the five reserved characters is replaced by its entity exactly once, every
other character is kept verbatim.  Used to state claim C2 against
`escapeHtml`. -/
def htmlEntity (c : Char) : List Char :=
  if c = '&' then ("&amp;").data
  else if c = '<' then ("&lt;").data
  else if c = '>' then ("&gt;").data
  else if c = '"' then ("&quot;").data
  else if c = aposChar then ("&#39;").data
  else [c]

theorem replaceAllC_append (p : Char) (r : List Char) (xs ys : List Char) :
    replaceAllC p r (xs ++ ys) = replaceAllC p r xs ++ replaceAllC p r ys := by
  induction xs with
  | nil => rfl
  | cons c rest ih => simp [replaceAllC, ih]

theorem escapeList_append (xs ys : List Char) :
    escapeList (xs ++ ys) = escapeList xs ++ escapeList ys := by
  simp [escapeList, replaceAllC_append]

theorem escapeList_single (c : Char) : escapeList [c] = htmlEntity c := by
  by_cases h1 : c = '&'
  · subst h1; rfl
  by_cases h2 : c = '<'
  · subst h2; rfl
  by_cases h3 : c = '>'
  · subst h3; rfl
  by_cases h4 : c = '"'
  · subst h4; rfl
  by_cases h5 : c = aposChar
  · subst h5; rfl
  simp [escapeList, replaceAllC, htmlEntity, h1, h2, h3, h4, h5]

theorem escapeList_eq_flatten (cs : List Char) :
    escapeList cs = (cs.map htmlEntity).flatten := by
  induction cs with
  | nil => rfl
  | cons c rest ih =>
    have h : escapeList (c :: rest) = escapeList [c] ++ escapeList rest := by
      have := escapeList_append [c] rest
      simpa using this
    simp [h, escapeList_single, ih]

/-- C2.  HTML-escaping of user-supplied text: `escapeHtml` replaces each
occurrence of the five reserved characters with its entity exactly once and
leaves every other character unchanged — its output is the per-character
entity expansion of the original input, so there is no double-escaping: an
input already containing an ampersand has that ampersand escaped exactly once
(witnessed by the concrete conjuncts).  Every user-supplied string that the
renderers below interpolate into an HTML page is passed through this
function. -/
theorem escapeHtml_spec :
    (∀ s : String, (escapeHtml s).data = (s.data.map htmlEntity).flatten)
      ∧ escapeHtml ("a&b") = "a&amp;b"
      ∧ escapeHtml ("&amp;") = "&amp;amp;"
      ∧ escapeHtml ("<\"&>") = "&lt;&quot;&amp;&gt;" := by
  refine ⟨fun s => ?_, by decide, by decide, by decide⟩
  simp [escapeHtml, escapeList_eq_flatten]

/-- ASCII whitespace, the fragment of JS `String.prototype.trim` whitespace
that the content files use. -/
def isJsSpace (c : Char) : Bool :=
  c = ' ' || c = '\t' || c = '\n' || c = '\r'

/-- Kernel-reducible model of JS `trim`. -/
def strTrim (s : String) : String :=
  String.mk (((s.data.dropWhile isJsSpace).reverse.dropWhile isJsSpace).reverse)

/-- Kernel-reducible model of JS `String.prototype.startsWith`. -/
def strStarts (s p : String) : Bool :=
  p.data.isPrefixOf s.data

/-- Kernel-reducible model of JS `String.prototype.endsWith`. -/
def strEnds (s p : String) : Bool :=
  p.data.reverse.isPrefixOf s.data.reverse

/-- Model of JS `.replace(/\/+$/, "")`: drop every trailing slash. -/
def stripTrailingSlashes (s : String) : String :=
  String.mk ((s.data.reverse.dropWhile (fun c => c = '/')).reverse)

/-- Drop every leading slash; used to turn an absolute site URL path into a
path relative to the output directory, as `path.join(distDir, urlPath)`
does. -/
def stripLeadingSlashes (s : String) : String :=
  String.mk (s.data.dropWhile (fun c => c = '/'))

/-- Model of `normalizeBaseUrl` (`build.mjs` lines 19-22). -/
def normalizeBaseUrl (url : Option String) : String :=
  stripTrailingSlashes (strTrim (url.getD ""))

/-- Model of `normalizeBasePath` (`build.mjs` lines 24-30). -/
def normalizeBasePath (basePath : Option String) : String :=
  let trimmed := strTrim (basePath.getD "")
  if trimmed.isEmpty || trimmed == "/" then ""
  else
    let withLeadingSlash := if strStarts trimmed ("/") then trimmed else "/" ++ trimmed
    stripTrailingSlashes withLeadingSlash

/-- Photo record of an artist or team member (`photo` object in the content
files). -/
structure Photo where
  path : Option String
  alt : Option String
  credit : Option String
  sourceUrl : Option String
deriving DecidableEq

/-- Artist record from `artists.json`.  String-valued fields are `Option
String` (`none` models an absent property).  `repertoireHighlights` is the
list the renderer iterates; an absent or non-array value behaves exactly like
`[]` in the source (`Array.isArray` guard), so both are modelled by `[]`. -/
structure Artist where
  slug : Option String
  name : Option String
  discipline : Option String
  voiceType : Option String
  location : Option String
  bio : Option String
  managementNotes : Option String
  website : Option String
  repertoireHighlights : List String
  photo : Option Photo
deriving DecidableEq

/-- Contact block of `site.json`. -/
structure Contact where
  email : Option String
  phone : Option String
  location : Option String
deriving DecidableEq

/-- Team member record from `team.json` (or `site.json`'s `team`). -/
structure TeamMember where
  slug : Option String
  name : Option String
  title : Option String
  email : Option String
  photo : Option Photo
deriving DecidableEq

/-- Site configuration from `site.json`. -/
structure Site where
  agencyName : Option String
  description : Option String
  baseUrl : Option String
  basePath : Option String
  contact : Option Contact
  team : Option (List TeamMember)
deriving DecidableEq

/-- The two environment variables read by the build: `BASE_PATH` and
`BASE_URL` (`none` models an unset variable). -/
structure Env where
  basePathVar : Option String
  baseUrlVar : Option String
deriving DecidableEq

/-- Model of `resolveBasePath` (`build.mjs` lines 32-34):
`normalizeBasePath(process.env.BASE_PATH ?? site.basePath)`. -/
def resolveBasePath (env : Env) (site : Site) : String :=
  normalizeBasePath (nullishOr env.basePathVar site.basePath)

/-- Model of `resolveBaseUrl` (`build.mjs` lines 36-40). -/
def resolveBaseUrl (env : Env) (site : Site) : String :=
  let envBaseUrl := normalizeBaseUrl env.baseUrlVar
  if !envBaseUrl.isEmpty then envBaseUrl else normalizeBaseUrl site.baseUrl

/-- Model of `withBase` (`build.mjs` lines 42-46), the apply-base transform
for internal links. -/
def withBase (env : Env) (site : Site) (urlPath : String) : String :=
  if !(strStarts urlPath ("/")) then urlPath
  else
    let basePath := resolveBasePath env site
    if !basePath.isEmpty then basePath ++ urlPath else urlPath

/-- Scans for the first `://` marker, returning the text after it; `none`
when there is no marker or no scheme before it (the `new URL` constructor
would throw). -/
def splitScheme (acc : List Char) : List Char → Option (List Char)
  | ':' :: '/' :: '/' :: rest => if acc.isEmpty then none else some rest
  | c :: rest => splitScheme (acc ++ [c]) rest
  | [] => none

/-- Pathname of an absolute `scheme://host[/path]` URL, modelling the WHATWG
`URL` parse used by `baseUrlHasPathname`; `none` models a throwing parse.
An empty pathname plays the role of the normalized `"/"`. -/
def urlPathname (s : String) : Option String :=
  match splitScheme [] s.data with
  | none => none
  | some rest =>
    let host := rest.takeWhile (fun c => c ≠ '/')
    if host.isEmpty then none
    else some (String.mk (rest.dropWhile (fun c => c ≠ '/')))

/-- Model of `baseUrlHasPathname` (`build.mjs` lines 48-55). -/
def baseUrlHasPathname (baseUrl : String) : Bool :=
  match urlPathname baseUrl with
  | none => false
  | some p => !p.isEmpty && !(p == "/")

/-- Model of `sitePathForUrl` (`build.mjs` lines 57-63): the base-path
adjustment used for canonical/sitemap URLs, which skips the prefix when the
base URL itself already carries a pathname. -/
def sitePathForUrl (env : Env) (site : Site) (baseUrl urlPath : String) : String :=
  if !(strStarts urlPath ("/")) then urlPath
  else
    let basePath := resolveBasePath env site
    if basePath.isEmpty then urlPath
    else if !baseUrl.isEmpty && baseUrlHasPathname baseUrl then urlPath
    else basePath ++ urlPath

/-- Model of `safeJoinUrl` (`build.mjs` lines 65-69). -/
def safeJoinUrl (baseUrl pathname : String) : String :=
  let base := normalizeBaseUrl (some baseUrl)
  if base.isEmpty then ""
  else base ++ (if strStarts pathname ("/") then "" else "/") ++ pathname

/-- Model of `ensureTrailingSlash` (`build.mjs` lines 71-73). -/
def ensureTrailingSlash (p : String) : String :=
  if strEnds p ("/") then p else p ++ "/"

/-- Lower-case letter or digit: one character of the `[a-z0-9]` class of the
slug regex. -/
def isSlugChar (c : Char) : Bool :=
  ('a' ≤ c && c ≤ 'z') || ('0' ≤ c && c ≤ '9')

/-- Splits a character list at every dash; `splitDash "a-b" = ["a", "b"]`,
with empty groups for leading, trailing or doubled dashes. -/
def splitDash : List Char → List (List Char)
  | [] => [[]]
  | '-' :: rest => [] :: splitDash rest
  | c :: rest =>
    match splitDash rest with
    | [] => [[c]]
    | g :: gs => (c :: g) :: gs

/-- Model of the slug regex test `/^[a-z0-9]+(?:-[a-z0-9]+)*$/.test(slug)`
(`build.mjs` line 457): the string is a dash-separated sequence of one or
more nonempty `[a-z0-9]` groups. -/
def slugRegexMatches (s : String) : Bool :=
  (splitDash s.data).all (fun g => !g.isEmpty && g.all isSlugChar)

/-- The three errors thrown by `validateArtists` (`build.mjs` lines 451-463),
carrying the data interpolated into each message. -/
inductive ValidationError where
  | missingFields (entry : Artist)
  | malformedSlug (slug : String)
  | duplicateSlug (slug : String)
deriving DecidableEq

/-- Slug of an artist as a plain string (call sites only reach it after the
truthiness check, where it is a nonempty string). -/
def slugOf (a : Artist) : String :=
  a.slug.getD ""

/-- First violation of one artist entry against the set of already-seen
slugs, in the check order of the source: missing fields, then malformed slug,
then duplicate slug. -/
def entryErr (seen : List String) (a : Artist) : Option ValidationError :=
  if !truthyS a.slug || !truthyS a.name then some (.missingFields a)
  else if !slugRegexMatches (slugOf a) then some (.malformedSlug (slugOf a))
  else if seen.contains (slugOf a) then some (.duplicateSlug (slugOf a))
  else none

/-- Loop body of `validateArtists`: `seen` is the set of slugs of the already
validated entries. -/
def validateArtistsAux (seen : List String) : List Artist → Except ValidationError Unit
  | [] => .ok ()
  | a :: rest =>
    if !truthyS a.slug || !truthyS a.name then .error (.missingFields a)
    else if !slugRegexMatches (slugOf a) then .error (.malformedSlug (slugOf a))
    else if seen.contains (slugOf a) then .error (.duplicateSlug (slugOf a))
    else validateArtistsAux (slugOf a :: seen) rest

/-- Model of `validateArtists` (`build.mjs` lines 451-463). -/
def validateArtists (artists : List Artist) : Except ValidationError Unit :=
  validateArtistsAux [] artists

/-- Modelled from the spec: one artist entry has no violation with respect to
the slugs seen so far — truthy slug and name, slug matching the kebab-case
regex, slug distinct from every earlier slug. -/
def entryOk (seen : List String) (a : Artist) : Bool :=
  truthyS a.slug && truthyS a.name && slugRegexMatches (slugOf a)
    && !(seen.contains (slugOf a))

/-- Modelled from the spec: an artist list with no violations, threading the
slugs of earlier entries. -/
def rosterOkFrom (seen : List String) : List Artist → Bool
  | [] => true
  | a :: rest => entryOk seen a && rosterOkFrom (slugOf a :: seen) rest

/-- Slugs accumulated by the validation loop after a list of entries. -/
def seenAfter (seen : List String) : List Artist → List String
  | [] => seen
  | a :: rest => seenAfter (slugOf a :: seen) rest

theorem validateArtistsAux_cons (seen : List String) (a : Artist) (rest : List Artist) :
    validateArtistsAux seen (a :: rest) =
      match entryErr seen a with
      | some e => Except.error e
      | none => validateArtistsAux (slugOf a :: seen) rest := by
  simp only [validateArtistsAux, entryErr]
  by_cases h1 : (!truthyS a.slug || !truthyS a.name) = true
  · simp [h1]
  · simp only [Bool.not_eq_true] at h1
    by_cases h2 : (!slugRegexMatches (slugOf a)) = true
    · simp [h1, h2]
    · simp only [Bool.not_eq_true] at h2
      by_cases h3 : slugOf a ∈ seen
      · simp [h1, h2, h3]
      · simp [h1, h2, h3]

theorem entryErr_isNone (seen : List String) (a : Artist) :
    (entryErr seen a).isNone = entryOk seen a := by
  simp only [entryErr, entryOk]
  by_cases h1 : truthyS a.slug <;>
    by_cases h2 : truthyS a.name <;>
      by_cases h3 : slugRegexMatches (slugOf a) <;>
        by_cases h4 : slugOf a ∈ seen <;>
          simp [h1, h2, h3, h4]

theorem validateArtistsAux_ok_iff (as : List Artist) :
    ∀ seen, validateArtistsAux seen as = Except.ok () ↔ rosterOkFrom seen as = true := by
  induction as with
  | nil => intro seen; simp [validateArtistsAux, rosterOkFrom]
  | cons a rest ih =>
    intro seen
    rw [validateArtistsAux_cons]
    have hn := entryErr_isNone seen a
    cases he : entryErr seen a with
    | some e =>
      have : entryOk seen a = false := by
        rw [← hn, he]; rfl
      simp [rosterOkFrom, this]
    | none =>
      have : entryOk seen a = true := by
        rw [← hn, he]; rfl
      simp [rosterOkFrom, this, ih]

theorem validateArtistsAux_firstViolation (pre : List Artist) :
    ∀ seen (a : Artist) (post : List Artist) (e : ValidationError),
      validateArtistsAux seen pre = Except.ok () →
      entryErr (seenAfter seen pre) a = some e →
      validateArtistsAux seen (pre ++ a :: post) = Except.error e := by
  induction pre with
  | nil =>
    intro seen a post e _ he
    simp only [seenAfter] at he
    rw [List.nil_append, validateArtistsAux_cons, he]
  | cons b rest ih =>
    intro seen a post e hok he
    rw [validateArtistsAux_cons] at hok
    cases hb : entryErr seen b with
    | some eb => rw [hb] at hok; exact absurd hok (by simp)
    | none =>
      rw [hb] at hok
      have := ih (slugOf b :: seen) a post e hok he
      rw [List.cons_append, validateArtistsAux_cons, hb]
      exact this

/-- C1.  Artist validation: the validator accepts exactly the artist lists
with no violations (truthy slug and name, kebab-case slug, no slug equal to
an earlier entry's slug); when a violation-free prefix is followed by a
violating entry, validation fails with the error describing that first
violating entry; and the regex test itself rejects `Jane-Doe`, `jane_doe` and
the empty string while accepting `jane-doe` and `jane2-doe`. -/
theorem validateArtists_spec :
    (∀ as, validateArtists as = Except.ok () ↔ rosterOkFrom [] as = true)
      ∧ slugRegexMatches ("jane-doe") = true
      ∧ slugRegexMatches ("jane2-doe") = true
      ∧ slugRegexMatches ("Jane-Doe") = false
      ∧ slugRegexMatches ("jane_doe") = false
      ∧ slugRegexMatches ("") = false
      ∧ (∀ pre a post e, validateArtists pre = Except.ok () →
          entryErr (seenAfter [] pre) a = some e →
          validateArtists (pre ++ a :: post) = Except.error e) := by
  refine ⟨fun as => validateArtistsAux_ok_iff as [], by decide, by decide,
    by decide, by decide, by decide, fun pre a post e hok he => ?_⟩
  exact validateArtistsAux_firstViolation pre [] a post e hok he

/-- Concrete soprano entry used by the closed witnesses. -/
def artistJane : Artist :=
  ⟨some "jane-doe", some "Jane Doe", some "Soprano", none, none, none, none, none, [], none⟩

/-- Second entry reusing the slug `jane-doe`, a duplicate of `artistJane`. -/
def artistDupJane : Artist :=
  ⟨some "jane-doe", some "Another Jane", none, none, none, none, none, none, [], none⟩

theorem validateArtists_spec_witness :
    validateArtists ([artistJane] ++ artistDupJane :: []) =
      Except.error (ValidationError.duplicateSlug ("jane-doe")) :=
  validateArtists_spec.2.2.2.2.2.2 [artistJane] artistDupJane []
    (ValidationError.duplicateSlug ("jane-doe")) (by rfl) (by decide)

/-- Output directory state: an association list from path (relative to the
output directory, no leading slash) to file content.  Directory creation has
no observable effect in any verified property and is not tracked. -/
abbrev DistFs := List (String × String)

/-- Existence check of a file in the output directory (`fs.access`). -/
def fsHas (d : DistFs) (p : String) : Bool :=
  d.any (fun e => e.1 == p)

/-- Content of a file in the output directory. -/
def fsLookup (d : DistFs) (p : String) : Option String :=
  (List.find? (fun e => e.1 == p) d).map (fun e => e.2)

/-- Model of `fs.writeFile`: create the file or overwrite an existing one. -/
def fsWrite (d : DistFs) (p c : String) : DistFs :=
  (d.filter (fun e => !(e.1 == p))) ++ [(p, c)]

/-- Model of `assetExistsInDist` (`build.mjs` lines 75-84), against an
explicit output-directory state: false unless the URL path starts with `/`
and `path.join(distDir, urlPath)` names an existing file. -/
def assetExistsInDist (d : DistFs) (urlPath : Option String) : Bool :=
  match urlPath with
  | none => false
  | some p => strStarts p ("/") && fsHas d (stripLeadingSlashes p)

/-- Model of `artistLabel` (`build.mjs` lines 86-88):
`artist.discipline || artist.voiceType || ""`. -/
def artistLabel (a : Artist) : String :=
  if truthyS a.discipline then a.discipline.getD ""
  else if truthyS a.voiceType then a.voiceType.getD ""
  else ""

/-- ASCII lower-casing of one character. -/
def charLower (c : Char) : Char :=
  if 'A' ≤ c && c ≤ 'Z' then Char.ofNat (c.toNat + 32) else c

/-- Model of `normalizeForSearch` (`build.mjs` lines 90-96): lower-case and
trim.  The NFKD decomposition and diacritic stripping are the identity on the
ASCII content every verified property uses and are modelled as such. -/
def normalizeForSearch (v : String) : String :=
  strTrim (String.mk (v.data.map charLower))

/-- The portrait-path selection repeated at the three render sites
(`build.mjs` lines 123, 308, 373): the configured `photo.path` when it names
an existing file in the output directory, else the fixed placeholder. -/
def portraitPathFor (d : DistFs) (photo : Option Photo) : String :=
  if assetExistsInDist d (photo.bind Photo.path) then (photo.bind Photo.path).getD ""
  else "/assets/people/placeholder.svg"

/-- Portrait alt text: `photo?.alt || "Portrait of " + name`. -/
def portraitAltFor (photo : Option Photo) (name : Option String) : String :=
  jsOr ((photo.bind Photo.alt).getD "") ("Portrait of " ++ jsShow name)

/-- Insertion-order deduplication, as iterating a JS `Set`. -/
def dedupAux (seen : List String) : List String → List String
  | [] => []
  | x :: xs => if seen.contains x then dedupAux seen xs else x :: dedupAux (x :: seen) xs

/-- Deduplicate a string list keeping first occurrences (`new Set(...)`). -/
def jsSetDedup (xs : List String) : List String :=
  dedupAux [] xs

/-- Code-point comparison of character lists. -/
def listCharLe : List Char → List Char → Bool
  | [], _ => true
  | _ :: _, [] => false
  | a :: as, b :: bs => if a = b then listCharLe as bs else decide (a < b)

/-- Insert into a sorted string list. -/
def insertSorted (x : String) : List String → List String
  | [] => [x]
  | y :: ys => if listCharLe x.data y.data then x :: y :: ys else y :: insertSorted x ys

/-- Model of `.sort((a, b) => a.localeCompare(b))` as code-point order (the
locale collation agrees with it on the ASCII labels the properties use). -/
def sortStrings (xs : List String) : List String :=
  xs.foldr insertSorted []

/-- Model of `Array.prototype.join`. -/
def joinSep (sep : String) : List String → String
  | [] => ""
  | [x] => x
  | x :: xs => x ++ sep ++ joinSep sep xs

/-- Model of `renderContactStrip` (`build.mjs` lines 98-105). -/
def renderContactStrip (site : Site) : String :=
  let email := (site.contact.bind Contact.email).getD ""
  "<section class=\"contact\">\n  <h2>Get in Touch</h2>\n  <p>For booking inquiries and general questions</p>\n  "
    ++ (if !email.isEmpty then "<a class=\"btn\" href=\"mailto:" ++ escapeHtml email ++ "\">Contact Us</a>" else "")
    ++ "\n</section>"

/-- One roster card (`build.mjs` lines 118-140), rendered against the
output-directory state `d` current at render time. -/
def rosterCard (env : Env) (site : Site) (d : DistFs) (a : Artist) : String :=
  let artistPath := "/artists/" ++ jsShow a.slug ++ "/"
  let href := withBase env site artistPath
  let label := artistLabel a
  let searchable := normalizeForSearch
    (joinSep (" ") (([jsShow a.name, label, a.location.getD ""].filter (fun s => !s.isEmpty))))
  let portraitUrl := withBase env site (portraitPathFor d a.photo)
  let portraitAlt := portraitAltFor a.photo a.name
  "<article class=\"artist-card\" data-artist-card data-name=\"" ++ escapeHtml searchable
    ++ "\" data-type=\"" ++ escapeHtml label ++ "\">\n  <a class=\"artist-card__media\" href=\""
    ++ escapeHtml href ++ "\" aria-label=\"" ++ escapeHtml (jsShow a.name) ++ "\">\n    <img src=\""
    ++ escapeHtml portraitUrl ++ "\" alt=\"" ++ escapeHtml portraitAlt
    ++ "\" loading=\"lazy\" decoding=\"async\" />\n  </a>\n  <div class=\"artist-card__body\">\n    <a href=\""
    ++ escapeHtml href ++ "\"><h3>" ++ escapeHtml (jsShow a.name) ++ "</h3></a>\n    <p class=\"meta\">"
    ++ escapeHtml (joinSep (" · ") (([label, a.location.getD ""].filter (fun s => !s.isEmpty)))) ++ "</p>\n    "
    ++ (if truthyS a.managementNotes then
          "<p class=\"meta artist-card__note\">" ++ escapeHtml (a.managementNotes.getD "") ++ "</p>"
        else "") ++ "\n    "
    ++ (if truthyS a.website then
          "<div class=\"tagrow\">\n      <a class=\"tag\" href=\"" ++ escapeHtml (a.website.getD "")
            ++ "\" target=\"_blank\" rel=\"noopener noreferrer\">Website</a>\n    </div>"
        else "") ++ "\n  </div>\n</article>"

/-- Model of `renderRosterSection` (`build.mjs` lines 107-165).  JS
`artist.name` interpolations go through `jsShow`; `searchable` joins the
truthy parts with spaces exactly as the source does. -/
def renderRosterSection (env : Env) (site : Site) (d : DistFs) (artists : List Artist)
    (title intro : String) : String :=
  let types := sortStrings (jsSetDedup
    (((artists.map artistLabel).filter (fun t => !t.isEmpty)).map strTrim))
  let cards := joinSep ("\n") (artists.map (rosterCard env site d))
  "<section class=\"roster\" data-roster>\n  "
    ++ (if !title.isEmpty then "<h2 class=\"section-title roster__title\">" ++ escapeHtml title ++ "</h2>" else "")
    ++ "\n  "
    ++ (if !intro.isEmpty then "<p class=\"meta\" style=\"margin-top: 0;\">" ++ escapeHtml intro ++ "</p>" else "")
    ++ "\n  <div class=\"roster__controls\" data-roster-controls>\n    <label class=\"roster__field\">\n      <span class=\"visually-hidden\">Search artists</span>\n      <input id=\"roster-search\" class=\"input\" type=\"search\" placeholder=\"Search artists\" autocomplete=\"off\" />\n    </label>\n    <label class=\"roster__field\">\n      <span class=\"visually-hidden\">Filter by discipline</span>\n      <select id=\"roster-filter\" class=\"select\">\n        <option value=\"\">All disciplines</option>\n        "
    ++ joinSep ("") (types.map (fun t => "<option value=\"" ++ escapeHtml t ++ "\">" ++ escapeHtml t ++ "</option>"))
    ++ "\n      </select>\n    </label>\n    <div class=\"roster__count meta\"><span id=\"roster-count\">"
    ++ toString artists.length
    ++ "</span> results</div>\n  </div>\n  <div class=\"artist-grid\" aria-label=\"Artist roster\">\n    "
    ++ cards
    ++ "\n  </div>\n  <div id=\"roster-empty\" class=\"notice\" style=\"display:none;\">No artists match your search.</div>\n</section>"

/-- Model of `renderFeaturedArtistsGrid` (`build.mjs` lines 167-188): the
first 9 artists. -/
def renderFeaturedArtistsGrid (env : Env) (site : Site) (artists : List Artist) : String :=
  let featured := artists.take 9
  let artistLinks := joinSep ("\n") (featured.map (fun a =>
    "<a href=\"" ++ escapeHtml (withBase env site ("/artists/" ++ jsShow a.slug ++ "/"))
      ++ "\" class=\"artist\">\n  <h3>" ++ escapeHtml (jsShow a.name) ++ "</h3>\n  <span>"
      ++ escapeHtml (artistLabel a) ++ "</span>\n</a>"))
  "<section class=\"roster-featured\">\n  <div class=\"roster-header\">\n    <h2>Featured Artists</h2>\n    <a href=\""
    ++ escapeHtml (withBase env site ("/artists/")) ++ "\">View All</a>\n  </div>\n  <div class=\"artists-grid\">\n    "
    ++ artistLinks ++ "\n  </div>\n</section>"

/-- The canonical/Open-Graph URL computed by `renderLayout` (`build.mjs`
lines 191-194): the base URL joined with the base-path-adjusted page path,
empty when the page has no canonical path. -/
def layoutCanonical (env : Env) (site : Site) (canonicalPath : String) : String :=
  let baseUrl := resolveBaseUrl env site
  if !canonicalPath.isEmpty then
    safeJoinUrl baseUrl (sitePathForUrl env site baseUrl canonicalPath)
  else ""

/-- Model of `renderLayout` (`build.mjs` lines 190-251).  The local `year` of
the source is computed but never interpolated into the template and is
omitted.  A raw `title`/`agencyName` interpolation goes through `jsShow`. -/
def renderLayout (env : Env) (site : Site) (title description canonicalPath content : String) : String :=
  let canonical := layoutCanonical env site canonicalPath
  let metaDescription := strTrim (jsOr description (site.description.getD ""))
  let fullTitle := if !title.isEmpty then title ++ " · " ++ jsShow site.agencyName else jsShow site.agencyName
  "<!doctype html>\n<html lang=\"en\">\n  <head>\n    <meta charset=\"utf-8\" />\n    <meta name=\"viewport\" content=\"width=device-width, initial-scale=1\" />\n    <meta name=\"color-scheme\" content=\"dark\" />\n    <title>"
    ++ escapeHtml fullTitle ++ "</title>\n    <meta name=\"robots\" content=\"index,follow\" />\n    "
    ++ (if !metaDescription.isEmpty then
          "<meta name=\"description\" content=\"" ++ escapeHtml metaDescription ++ "\" />" else "") ++ "\n    "
    ++ (if !canonical.isEmpty then
          "<link rel=\"canonical\" href=\"" ++ escapeHtml canonical ++ "\" />" else "")
    ++ "\n    <meta property=\"og:site_name\" content=\"" ++ escapeHtml (jsShow site.agencyName)
    ++ "\" />\n    <meta property=\"og:title\" content=\"" ++ escapeHtml fullTitle ++ "\" />\n    "
    ++ (if !metaDescription.isEmpty then
          "<meta property=\"og:description\" content=\"" ++ escapeHtml metaDescription ++ "\" />" else "") ++ "\n    "
    ++ (if !canonical.isEmpty then
          "<meta property=\"og:url\" content=\"" ++ escapeHtml canonical ++ "\" />" else "")
    ++ "\n    <meta property=\"og:type\" content=\"website\" />\n    <meta name=\"twitter:card\" content=\"summary\" />\n    <link rel=\"icon\" href=\""
    ++ escapeHtml (withBase env site ("/assets/favicon.svg"))
    ++ "\" type=\"image/svg+xml\" />\n    <link rel=\"preload\" href=\""
    ++ escapeHtml (withBase env site ("/assets/logo.svg"))
    ++ "\" as=\"image\" type=\"image/svg+xml\" />\n    <link rel=\"preconnect\" href=\"https://fonts.googleapis.com\">\n    <link rel=\"preconnect\" href=\"https://fonts.gstatic.com\" crossorigin>\n    <link href=\"https://fonts.googleapis.com/css2?family=EB+Garamond:ital,wght@0,400;0,500;1,400&family=Inter:wght@300;400&display=swap\" rel=\"stylesheet\">\n    <link rel=\"stylesheet\" href=\""
    ++ escapeHtml (withBase env site ("/assets/styles.css")) ++ "\" />\n    <script defer src=\""
    ++ escapeHtml (withBase env site ("/assets/site.js"))
    ++ "\"></script>\n  </head>\n  <body>\n    <a class=\"skip\" href=\"#main\">Skip to content</a>\n    <header>\n      <div class=\"container\">\n        <nav class=\"nav\" aria-label=\"Primary\">\n          <a class=\"brand\" href=\""
    ++ escapeHtml (withBase env site ("/"))
    ++ "\" data-nav>Altman Artists</a>\n          <div class=\"navlinks\">\n            <a class=\"navlink\" href=\""
    ++ escapeHtml (withBase env site ("/artists/"))
    ++ "\" data-nav>Artists</a>\n            <a class=\"navlink\" href=\""
    ++ escapeHtml (withBase env site ("/contact/"))
    ++ "\" data-nav>Contact</a>\n          </div>\n        </nav>\n      </div>\n    </header>\n    <main id=\"main\">\n      <div class=\"container\">\n        "
    ++ content
    ++ "\n      </div>\n    </main>\n    <footer>\n      <div class=\"container\">\n        <div class=\"footerrow\">\n          <span>"
    ++ escapeHtml (jsShow site.agencyName)
    ++ "</span>\n          <span>Artist Management</span>\n        </div>\n      </div>\n    </footer>\n  </body>\n</html>"

/-- Model of `renderHome` (`build.mjs` lines 253-267); its unused local
`email` is omitted. -/
def renderHome (env : Env) (site : Site) (artists : List Artist) : String :=
  renderLayout env site ("") (site.description.getD "") ("/")
    ("<section class=\"hero\">\n  <img src=\"" ++ escapeHtml (withBase env site ("/assets/logo.svg"))
      ++ "\" alt=\"Altman Artists\" class=\"hero-logo\" />\n  <a class=\"btn\" href=\""
      ++ escapeHtml (withBase env site ("/artists/")) ++ "\">Explore Roster</a>\n</section>\n"
      ++ renderFeaturedArtistsGrid env site artists ++ "\n" ++ renderContactStrip site)

/-- Model of `renderArtistsIndex` (`build.mjs` lines 269-282). -/
def renderArtistsIndex (env : Env) (site : Site) (d : DistFs) (artists : List Artist) : String :=
  renderLayout env site ("Artists")
    ("Roster of artists represented by " ++ jsShow site.agencyName ++ ".") ("/artists/")
    ("<section class=\"page\">\n  <h1>Artists</h1>\n  <p>Search the roster and filter by discipline/voice type.</p>\n</section>\n"
      ++ renderRosterSection env site d artists ("") ("") ++ "\n" ++ renderContactStrip site)

/-- Value of the `team` variable of `buildSite`: the parse of `team.json`,
which is either an array of members or some other JSON value
(`Array.isArray` then fails and the renderers fall back to `site.team`). -/
inductive TeamJson where
  | arr (members : List TeamMember)
  | notArr
deriving DecidableEq

/-- Team list a renderer resolves from the `team` value (`build.mjs` lines
285 and 354): `Array.isArray(team) ? team : Array.isArray(site.team) ?
site.team : []`. -/
def resolvedTeamOf (site : Site) (team : TeamJson) : List TeamMember :=
  match team with
  | .arr ms => ms
  | .notArr => site.team.getD []

/-- Model of `renderAbout` (`build.mjs` lines 284-305). -/
def renderAbout (env : Env) (site : Site) (team : TeamJson) : String :=
  let resolvedTeam := resolvedTeamOf site team
  renderLayout env site ("About") ("About " ++ jsShow site.agencyName ++ ".") ("/about/")
    ("<section class=\"page\">\n  <h1>About</h1>\n  <p>" ++ escapeHtml (site.description.getD "")
      ++ "</p>\n  "
      ++ (if !resolvedTeam.isEmpty then
            "<h2 class=\"section-title\" style=\"margin-top: 22px;\">Team</h2>\n  <ul class=\"list\">\n    "
              ++ joinSep ("") (resolvedTeam.map (fun m =>
                   "<li>" ++ escapeHtml (jsShow m.name)
                     ++ (if truthyS m.title then " — " ++ escapeHtml (m.title.getD "") else "")
                     ++ "</li>"))
              ++ "\n  </ul>"
          else "")
      ++ "\n</section>\n" ++ renderContactStrip site)

/-- The canonical path of an artist page, `/artists/<slug>/`, as interpolated
at `build.mjs` line 316. -/
def artistCanonicalPath (a : Artist) : String :=
  "/artists/" ++ jsShow a.slug ++ "/"

/-- Model of `renderArtistPage` (`build.mjs` lines 307-348), against the
output-directory state `d` current at render time. -/
def renderArtistPage (env : Env) (site : Site) (d : DistFs) (a : Artist) : String :=
  let portraitUrl := withBase env site (portraitPathFor d a.photo)
  let portraitAlt := portraitAltFor a.photo a.name
  let label := artistLabel a
  let credit := (a.photo.bind Photo.credit).getD ""
  let srcUrl := (a.photo.bind Photo.sourceUrl).getD ""
  renderLayout env site (a.name.getD "")
    (jsShow a.name ++ (if !label.isEmpty then " (" ++ label ++ ")" else "")
      ++ " — represented by " ++ jsShow site.agencyName ++ ".")
    (artistCanonicalPath a)
    ("<section class=\"page\">\n  <h1>" ++ escapeHtml (jsShow a.name) ++ "</h1>\n  <p>"
      ++ escapeHtml (joinSep (" · ") (([label, a.location.getD ""].filter (fun s => !s.isEmpty))))
      ++ "</p>\n  "
      ++ (if truthyS a.managementNotes then
            "<p class=\"meta\">" ++ escapeHtml (a.managementNotes.getD "") ++ "</p>" else "")
      ++ "\n  <div class=\"profile\">\n    <figure class=\"portrait\">\n      <img src=\""
      ++ escapeHtml portraitUrl ++ "\" alt=\"" ++ escapeHtml portraitAlt ++ "\" loading=\"eager\" />\n      "
      ++ (if !credit.isEmpty || !srcUrl.isEmpty then
            "<figcaption class=\"caption\">" ++ escapeHtml credit
              ++ (if !srcUrl.isEmpty then
                    " · <a href=\"" ++ escapeHtml srcUrl
                      ++ "\" target=\"_blank\" rel=\"noopener noreferrer\">Source</a>"
                  else "")
              ++ "</figcaption>"
          else "")
      ++ "\n    </figure>\n    <div>\n      <article class=\"panel\">\n        "
      ++ (if truthyS a.bio then "<p>" ++ escapeHtml (a.bio.getD "") ++ "</p>"
          else "<p>" ++ escapeHtml (site.description.getD "") ++ "</p>")
      ++ "\n        "
      ++ (if !a.repertoireHighlights.isEmpty then
            "<h2 style=\"margin: 18px 0 10px; font-size: 18px; font-family: var(--display);\">Repertoire highlights</h2>\n        <ul class=\"list\">"
              ++ joinSep ("") (a.repertoireHighlights.map (fun r => "<li>" ++ escapeHtml r ++ "</li>"))
              ++ "</ul>"
          else "")
      ++ "\n      </article>\n      <aside class=\"panel\" style=\"margin-top: 14px;\" aria-label=\"Artist links and details\">\n        <div class=\"kvs\">\n          "
      ++ (if !label.isEmpty then
            "<div class=\"kv\"><strong>Discipline</strong><span>" ++ escapeHtml label ++ "</span></div>"
          else "")
      ++ "\n          "
      ++ (if truthyS a.location then
            "<div class=\"kv\"><strong>Based in</strong><span>" ++ escapeHtml (a.location.getD "")
              ++ "</span></div>"
          else "")
      ++ "\n          "
      ++ (if truthyS a.website then
            "<div class=\"kv\"><strong>Website</strong><a href=\"" ++ escapeHtml (a.website.getD "")
              ++ "\" target=\"_blank\" rel=\"noopener noreferrer\">Visit site</a></div>"
          else "")
      ++ "\n        </div>\n      </aside>\n      <div class=\"notice\">Need a full résumé or media links? <a href=\""
      ++ escapeHtml (withBase env site ("/contact/"))
      ++ "\">Contact us</a>.</div>\n    </div>\n  </div>\n</section>")

/-- One team-member card of the contact page (`build.mjs` lines 372-383). -/
def contactMemberCard (env : Env) (site : Site) (d : DistFs) (m : TeamMember) : String :=
  let portraitUrl := withBase env site (portraitPathFor d m.photo)
  let portraitAlt := portraitAltFor m.photo m.name
  let positionStyle := if m.slug == some "summer-hassan" then "center 35%" else "center"
  "<div style=\"text-align: center;\">" ++ "<img src=\"" ++ escapeHtml portraitUrl
    ++ "\" alt=\"" ++ escapeHtml portraitAlt
    ++ "\" loading=\"lazy\" decoding=\"async\" style=\"width: 180px; height: 180px; border-radius: 50%; object-fit: cover; object-position: "
    ++ positionStyle ++ "; margin-bottom: 16px; border: 1px solid var(--border);\" />"
    ++ "<div style=\"font-weight: 500; margin-bottom: 4px;\">" ++ escapeHtml (jsShow m.name) ++ "</div>"
    ++ "<div style=\"font-size: 14px; opacity: 0.6;\">" ++ escapeHtml (m.title.getD "") ++ "</div>"
    ++ (if truthyS m.email then
          "<div style=\"font-size: 14px; margin-top: 8px;\"><a href=\"mailto:" ++ escapeHtml (m.email.getD "")
            ++ "\" style=\"opacity: 0.8;\">" ++ escapeHtml (m.email.getD "") ++ "</a></div>"
        else "")
    ++ "</div>"

/-- Model of `renderContact` (`build.mjs` lines 350-392). -/
def renderContact (env : Env) (site : Site) (d : DistFs) (team : TeamJson) : String :=
  let email := (site.contact.bind Contact.email).getD ""
  let phone := (site.contact.bind Contact.phone).getD ""
  let location := (site.contact.bind Contact.location).getD ""
  let resolvedTeam := resolvedTeamOf site team
  let phoneHref := String.mk (phone.data.filter (fun c => c.isDigit || c = '+'))
  renderLayout env site ("Contact")
    ("Contact " ++ jsShow site.agencyName ++ " for bookings and inquiries.") ("/contact/")
    ("<section class=\"page\" style=\"text-align: center; max-width: 800px; margin: 80px auto; padding: 0 24px;\">\n  <h1>Contact</h1>\n  <p style=\"margin-bottom: 40px;\">For engagements, availability, and general inquiries.</p>\n  "
      ++ (if !email.isEmpty then
            "<p style=\"margin-bottom: 20px;\"><a href=\"mailto:" ++ escapeHtml email
              ++ "\" style=\"font-size: 18px; font-weight: 400;\">" ++ escapeHtml email ++ "</a></p>"
          else "")
      ++ "\n  "
      ++ (if !phone.isEmpty then
            "<p style=\"margin-bottom: 60px;\"><a href=\"tel:" ++ escapeHtml phoneHref
              ++ "\" style=\"font-size: 18px; font-weight: 400;\">" ++ escapeHtml phone ++ "</a></p>"
          else "")
      ++ "\n  "
      ++ (if !resolvedTeam.isEmpty then
            "<div style=\"margin-top: 60px;\">\n    <h2 style=\"font-size: 24px; margin-bottom: 40px; font-weight: 400;\">Team</h2>\n    <div style=\"display: grid; grid-template-columns: repeat(auto-fit, minmax(200px, 1fr)); gap: 40px; max-width: 700px; margin: 0 auto;\">\n      "
              ++ joinSep ("") (resolvedTeam.map (contactMemberCard env site d))
              ++ "\n    </div>\n  </div>"
          else "")
      ++ "\n  "
      ++ (if !location.isEmpty then
            "<p style=\"opacity: 0.6; margin-top: 60px;\">" ++ escapeHtml location ++ "</p>"
          else "")
      ++ "\n</section>")

/-- Model of `renderNotFound` (`build.mjs` lines 394-406). -/
def renderNotFound (env : Env) (site : Site) : String :=
  renderLayout env site ("Page not found") (site.description.getD "") ("")
    ("<section class=\"page\">\n  <h1>Page not found</h1>\n  <p>The page you’re looking for doesn’t exist. Try the roster.</p>\n  <p><a class=\"cta\" href=\""
      ++ escapeHtml (withBase env site ("/artists/"))
      ++ "\"><span>View artists</span><small>/artists/</small></a></p>\n</section>")

/-- Model of `renderRobots` (`build.mjs` lines 408-413). -/
def renderRobots (env : Env) (site : Site) : String :=
  let baseUrl := resolveBaseUrl env site
  let sitemapPath := sitePathForUrl env site baseUrl ("/sitemap.xml")
  let sitemap := if !baseUrl.isEmpty then safeJoinUrl baseUrl sitemapPath else sitemapPath
  "User-agent: *\nAllow: /\n\nSitemap: " ++ sitemap ++ "\n"

/-- The page-path list of the sitemap (`build.mjs` lines 419-425). -/
def sitemapUrls (artists : List Artist) : List String :=
  ["/", "/artists/", "/about/"]
    ++ artists.map (fun a => "/artists/" ++ jsShow a.slug ++ "/")
    ++ ["/contact/"]

/-- One `<url>` element of the sitemap (`build.mjs` lines 430-433). -/
def sitemapEntry (env : Env) (site : Site) (baseUrl p : String) : String :=
  "  <url><loc>"
    ++ escapeHtml (safeJoinUrl baseUrl (sitePathForUrl env site baseUrl (ensureTrailingSlash p)))
    ++ "</loc></url>\n"

/-- Model of `renderSitemap` (`build.mjs` lines 415-436): empty string when
no base URL is configured. -/
def renderSitemap (env : Env) (site : Site) (artists : List Artist) : String :=
  let baseUrl := resolveBaseUrl env site
  if baseUrl.isEmpty then ""
  else
    "<?xml version=\"1.0\" encoding=\"UTF-8\"?>\n<urlset xmlns=\"http://www.sitemaps.org/schemas/sitemap/0.9\">\n"
      ++ joinSep ("") ((sitemapUrls artists).map (sitemapEntry env site baseUrl))
      ++ "</urlset>\n"

/-- Parse result of `artists.json`, as far as `buildSite` inspects it: an
array (whose elements are used as artist records), an object whose `artists`
property may hold any JSON value, or an atom (string, number, boolean,
null). -/
inductive ArtistsJson where
  | jArr (items : List Artist)
  | jObj (artistsField : Option ArtistsJson)
  | jAtom

/-- Model of the roster extraction in `buildSite` (`build.mjs` lines
468-472): `Array.isArray(artistsData) ? artistsData :
Array.isArray(artistsData?.artists) ? artistsData.artists : []`. -/
def extractArtists : ArtistsJson → List Artist
  | .jArr items => items
  | .jObj f =>
    match f with
    | some (.jArr items) => items
    | _ => []
  | .jAtom => []

/-- Errors modelled for a build run: a validation error thrown by
`validateArtists`, or the rejection of the `copyDir` of `src/assets`
(`build.mjs` line 488, the first un-caught I/O step after the output
directory is cleared). -/
inductive BuildError where
  | validation (e : ValidationError)
  | assetsCopyFailed
deriving DecidableEq

/-- Inputs of one build run: the parsed content files, the source asset
trees (`none` for `assets` models `copyDir` throwing because the tree is
unreadable; for `adminAssets`/`biosAssets` it models the absent optional
trees whose copy errors are swallowed), and the environment variables. -/
structure BuildInput where
  site : Site
  artistsData : ArtistsJson
  teamJson : Option TeamJson
  assets : Option DistFs
  adminAssets : Option DistFs
  biosAssets : Option DistFs
  env : Env

/-- The artist list a build run works with. -/
def buildArtistsOf (inp : BuildInput) : List Artist :=
  extractArtists inp.artistsData

/-- The `team` value of `buildSite` (`build.mjs` lines 474-479):
`Array.isArray(site.team) ? site.team : []`, replaced by the parse of
`team.json` when that file is readable and parses. -/
def buildTeamOf (inp : BuildInput) : TeamJson :=
  match inp.teamJson with
  | some t => t
  | none => .arr (inp.site.team.getD [])

/-- Model of `copyDir` (`build.mjs` lines 438-449): copy a source tree
verbatim under a destination root inside the output directory. -/
def copyTree (d : DistFs) (destRoot : String) : DistFs → DistFs
  | [] => d
  | f :: rest => copyTree (fsWrite d (destRoot ++ f.1) f.2) destRoot rest

/-- Output-directory state after the static phase of a successful build
(`build.mjs` lines 482-503): the cleared directory, the copied `src/assets`
tree, the `.nojekyll` marker, and the optional `admin` and `artists/bios`
trees. -/
def distStatic (inp : BuildInput) (assetsTree : DistFs) : DistFs :=
  let d1 := copyTree [] ("assets/") assetsTree
  let d2 := fsWrite d1 (".nojekyll") ("")
  let d3 :=
    match inp.adminAssets with
    | some t => copyTree d2 ("admin/") t
    | none => d2
  match inp.biosAssets with
  | some t => copyTree d3 ("artists/bios/") t
  | none => d3

/-- State after the home, artist-index and about pages are written
(`build.mjs` lines 505-508).  The artist-index roster renders against the
state that already contains the home page, exactly as the source renders it
after `index.html` is written. -/
def distFixedTop (inp : BuildInput) (assetsTree : DistFs) : DistFs :=
  let s := distStatic inp assetsTree
  let dHome := fsWrite s ("index.html") (renderHome inp.env inp.site (buildArtistsOf inp))
  let dIdx := fsWrite dHome ("artists/index.html")
    (renderArtistsIndex inp.env inp.site dHome (buildArtistsOf inp))
  fsWrite dIdx ("about/index.html") (renderAbout inp.env inp.site (buildTeamOf inp))

/-- Path of the page of one artist, `artists/<slug>/index.html` relative to
the output directory (`build.mjs` lines 511-513). -/
def artistPagePath (a : Artist) : String :=
  "artists/" ++ jsShow a.slug ++ "/index.html"

/-- The per-artist page loop (`build.mjs` lines 510-514): each page renders
against the state holding every previously written file. -/
def writeArtistPages (env : Env) (site : Site) (d : DistFs) : List Artist → DistFs
  | [] => d
  | a :: rest =>
    writeArtistPages env site (fsWrite d (artistPagePath a) (renderArtistPage env site d a)) rest

/-- State after every artist page is written. -/
def distArtistsDone (inp : BuildInput) (assetsTree : DistFs) : DistFs :=
  writeArtistPages inp.env inp.site (distFixedTop inp assetsTree) (buildArtistsOf inp)

/-- Final output-directory state of a successful build (`build.mjs` lines
516-521): contact page, 404 page, robots.txt, and the sitemap when it is
nonempty. -/
def distFinal (inp : BuildInput) (assetsTree : DistFs) : DistFs :=
  let dArtists := distArtistsDone inp assetsTree
  let dContact := fsWrite dArtists ("contact/index.html")
    (renderContact inp.env inp.site dArtists (buildTeamOf inp))
  let dNotFound := fsWrite dContact ("404.html") (renderNotFound inp.env inp.site)
  let dRobots := fsWrite dNotFound ("robots.txt") (renderRobots inp.env inp.site)
  let sitemap := renderSitemap inp.env inp.site (buildArtistsOf inp)
  if !sitemap.isEmpty then fsWrite dRobots ("sitemap.xml") sitemap else dRobots

/-- Model of `buildSite` (`build.mjs` lines 465-522) as a state transformer
on the output directory.  Validation runs strictly before the `fs.rm` that
clears the output directory, so a validation error returns the initial state
unchanged; an unreadable `src/assets` tree makes `copyDir` throw after the
clear, leaving the cleared state behind. -/
def buildSiteFs (inp : BuildInput) (d0 : DistFs) : DistFs × Option BuildError :=
  match validateArtists (buildArtistsOf inp) with
  | .error e => (d0, some (.validation e))
  | .ok _ =>
    match inp.assets with
    | none => ([], some .assetsCopyFailed)
    | some assetsTree => (distFinal inp assetsTree, none)

/-- Model of the rebuild step of the dev server's `scheduleRebuild`
(`dev.mjs` lines 55-72): run the build; on success broadcast a reload (the
`Bool`), on failure log the error and swallow it.  Either way the server
keeps serving whatever state the build left behind. -/
def scheduleRebuildStep (inp : BuildInput) (d : DistFs) : DistFs × Bool × Option BuildError :=
  match buildSiteFs inp d with
  | (dNew, none) => (dNew, true, none)
  | (dNew, some e) => (dNew, false, some e)

/-- C3.  Validation-failure atomicity: when the artist list fails
validation, `buildSite` raises before any mutation of the output directory —
the returned state is exactly the initial state, so nothing was cleared or
written. -/
theorem buildSite_validation_atomic (inp : BuildInput) (d0 : DistFs) (e : ValidationError)
    (h : validateArtists (buildArtistsOf inp) = Except.error e) :
    buildSiteFs inp d0 = (d0, some (BuildError.validation e)) := by
  simp [buildSiteFs, h]

/-- Minimal site configuration used by the concrete witnesses. -/
def siteMinimal : Site :=
  ⟨some "Test Agency", some "A test agency.", none, none, none, none⟩

/-- Empty environment (no `BASE_PATH`, no `BASE_URL`). -/
def envNone : Env :=
  ⟨none, none⟩

/-- Build input whose artist list carries a duplicate slug. -/
def inpDupSlug : BuildInput :=
  ⟨siteMinimal, .jArr [artistJane, artistDupJane], none, some [], none, none, envNone⟩

theorem buildSite_validation_atomic_witness :
    buildSiteFs inpDupSlug [("index.html", "old")] =
      ([("index.html", "old")],
        some (BuildError.validation (ValidationError.duplicateSlug ("jane-doe")))) :=
  buildSite_validation_atomic inpDupSlug [("index.html", "old")]
    (ValidationError.duplicateSlug ("jane-doe")) (by rfl)

theorem buildSiteFs_state_independent (inp : BuildInput) (d0 d1 : DistFs)
    (h : validateArtists (buildArtistsOf inp) = Except.ok ()) :
    buildSiteFs inp d0 = buildSiteFs inp d1 := by
  simp [buildSiteFs, h]

/-- C8.  Build determinism/idempotence: the build is a pure function of the
content input and environment — a second run over the output of a first run
returns the same state and outcome, and on a validating input the produced
output does not depend on the previous output-directory state at all (the
directory is cleared before anything is written). -/
theorem buildSite_idempotent :
    (∀ inp d0, buildSiteFs inp ((buildSiteFs inp d0).1) = buildSiteFs inp d0)
      ∧ (∀ inp d0 d1, validateArtists (buildArtistsOf inp) = Except.ok () →
          buildSiteFs inp d0 = buildSiteFs inp d1) := by
  constructor
  · intro inp d0
    cases h : validateArtists (buildArtistsOf inp) with
    | error e =>
      have h1 : buildSiteFs inp d0 = (d0, some (.validation e)) := by simp [buildSiteFs, h]
      rw [h1]
      exact h1
    | ok u =>
      cases u
      exact buildSiteFs_state_independent inp _ d0 h
  · intro inp d0 d1 h
    exact buildSiteFs_state_independent inp d0 d1 h

/-- Build input with one valid artist and an empty (but readable) asset
tree. -/
def inpGood : BuildInput :=
  ⟨siteMinimal, .jArr [artistJane], none, some [], none, none, envNone⟩

theorem buildSite_idempotent_witness :
    buildSiteFs inpGood [("stale.html", "stale")] = buildSiteFs inpGood [] :=
  buildSite_idempotent.2 inpGood [("stale.html", "stale")] [] (by rfl)

/-- C9 (amended).  Dev-server rebuild failures are swallowed (logged, no
reload broadcast) and the server keeps serving; when the failure is a
validation error — raised before the build clears the output directory — the
previously-built output is left untouched. -/
theorem devRebuild_failure (inp : BuildInput) (d : DistFs) (e : ValidationError)
    (h : validateArtists (buildArtistsOf inp) = Except.error e) :
    scheduleRebuildStep inp d = (d, false, some (BuildError.validation e)) := by
  simp [scheduleRebuildStep, buildSite_validation_atomic inp d e h]

theorem devRebuild_failure_witness :
    scheduleRebuildStep inpDupSlug [("index.html", "old")] =
      ([("index.html", "old")], false,
        some (BuildError.validation (ValidationError.duplicateSlug ("jane-doe")))) :=
  devRebuild_failure inpDupSlug [("index.html", "old")]
    (ValidationError.duplicateSlug ("jane-doe")) (by rfl)

/-- Output directory left by a successful build of `inpGood` over an empty
directory: the previously-built output of the dev-server scenario. -/
def prevDist : DistFs :=
  (buildSiteFs inpGood []).1

/-- Build input identical to `inpGood` except that the `src/assets` tree has
become unreadable, so `copyDir` throws after the output directory was
cleared. -/
def inpGoodNoAssets : BuildInput :=
  ⟨siteMinimal, .jArr [artistJane], none, none, none, none, envNone⟩

/-- C9 (counterexample).  A rebuild that fails after the build has cleared
the output directory (here: the asset copy throws) does not leave the
previously-built output untouched: the previously present `index.html` is
gone from the served state, refuting the claim for errors thrown after the
clear. -/
theorem devRebuild_counterexample :
    (scheduleRebuildStep inpGoodNoAssets prevDist).2.2 = some BuildError.assetsCopyFailed
      ∧ fsHas prevDist ("index.html") = true
      ∧ fsHas (scheduleRebuildStep inpGoodNoAssets prevDist).1 ("index.html") = false
      ∧ (scheduleRebuildStep inpGoodNoAssets prevDist).1 ≠ prevDist := by
  refine ⟨rfl, by rfl, rfl, fun hEq => ?_⟩
  have h2 : fsHas (scheduleRebuildStep inpGoodNoAssets prevDist).1 ("index.html") = false := by rfl
  rw [hEq] at h2
  have h1 : fsHas prevDist ("index.html") = true := by rfl
  rw [h1] at h2
  exact Bool.noConfusion h2

/-- C7.  Base-path link construction: `withBase` leaves non-absolute paths
and every path untouched when no base path is configured, prefixes the
configured base path onto absolute paths, and the canonical/Open-Graph URL
of a page with a canonical path is the configured base URL joined with the
base-path-adjusted page path. -/
theorem withBase_canonical_spec :
    (∀ env site p, strStarts p ("/") = false → withBase env site p = p)
      ∧ (∀ env site p, resolveBasePath env site = "" → withBase env site p = p)
      ∧ (∀ env site p, strStarts p ("/") = true → resolveBasePath env site ≠ "" →
          withBase env site p = resolveBasePath env site ++ p)
      ∧ (∀ env site cp, cp ≠ "" →
          layoutCanonical env site cp =
            safeJoinUrl (resolveBaseUrl env site)
              (sitePathForUrl env site (resolveBaseUrl env site) cp)) := by
  refine ⟨fun env site p h => ?_, fun env site p h => ?_, fun env site p h hb => ?_,
    fun env site cp h => ?_⟩
  · simp [withBase, h]
  · cases hs : strStarts p ("/")
    · simp [withBase, hs]
    · simp [withBase, hs, h]
  · have hb2 : (resolveBasePath env site).isEmpty = false := by
      cases he : (resolveBasePath env site).isEmpty
      · rfl
      · exact absurd ((String.isEmpty_iff _).mp he) hb
    simp [withBase, h, hb2]
  · have h2 : cp.isEmpty = false := by
      cases he : cp.isEmpty
      · rfl
      · exact absurd ((String.isEmpty_iff _).mp he) h
    simp [layoutCanonical, h2]

/-- Environment configuring the base path `/sub`, for the C7 witness. -/
def envSub : Env :=
  ⟨some "/sub", none⟩

theorem withBase_canonical_spec_witness :
    withBase envNone siteMinimal ("mailto:x") = "mailto:x"
      ∧ withBase envNone siteMinimal ("/artists/") = "/artists/"
      ∧ withBase envSub siteMinimal ("/artists/") = resolveBasePath envSub siteMinimal ++ "/artists/"
      ∧ layoutCanonical envSub siteMinimal ("/artists/") =
          safeJoinUrl (resolveBaseUrl envSub siteMinimal)
            (sitePathForUrl envSub siteMinimal (resolveBaseUrl envSub siteMinimal) ("/artists/")) :=
  ⟨withBase_canonical_spec.1 envNone siteMinimal ("mailto:x") (by rfl),
    withBase_canonical_spec.2.1 envNone siteMinimal ("/artists/") (by rfl),
    withBase_canonical_spec.2.2.1 envSub siteMinimal ("/artists/") (by rfl) (by decide),
    withBase_canonical_spec.2.2.2 envSub siteMinimal ("/artists/") (by decide)⟩

theorem strDataEq (s t : String) (h : s.data = t.data) : s = t := by
  cases s
  cases t
  exact congrArg String.mk h

theorem dataNeNil (s : String) (h : s ≠ "") : s.data ≠ [] := by
  intro hd
  exact h (strDataEq s "" hd)

theorem fsHas_true_iff (d : DistFs) (q : String) :
    fsHas d q = true ↔ ∃ e ∈ d, e.1 = q := by
  simp [fsHas, List.any_eq_true, beq_iff_eq]

theorem mem_fsWrite (e : String × String) (d : DistFs) (p c : String) :
    e ∈ fsWrite d p c ↔ (e ∈ d ∧ ¬ e.1 = p) ∨ e = (p, c) := by
  simp [fsWrite, List.mem_filter, List.mem_append, beq_iff_eq]

theorem fsHas_fsWrite (d : DistFs) (p c q : String) :
    fsHas (fsWrite d p c) q = (p == q || fsHas d q) := by
  by_cases hpq : p = q
  · subst hpq
    have h1 : fsHas (fsWrite d p c) p = true :=
      (fsHas_true_iff _ _).mpr ⟨(p, c), (mem_fsWrite _ _ _ _).mpr (Or.inr rfl), rfl⟩
    rw [h1]
    simp
  · have hb : (p == q) = false := by simp [hpq]
    rw [hb, Bool.false_or]
    cases hd : fsHas d q with
    | true =>
      obtain ⟨e, he, hq⟩ := (fsHas_true_iff _ _).mp hd
      exact (fsHas_true_iff _ _).mpr ⟨e, (mem_fsWrite _ _ _ _).mpr
        (Or.inl ⟨he, by rw [hq]; exact fun hc => hpq hc.symm⟩), hq⟩
    | false =>
      cases hl : fsHas (fsWrite d p c) q with
      | false => rfl
      | true =>
        obtain ⟨e, he, hq⟩ := (fsHas_true_iff _ _).mp hl
        rcases (mem_fsWrite _ _ _ _).mp he with ⟨hed, _⟩ | hep
        · rw [(fsHas_true_iff _ _).mpr ⟨e, hed, hq⟩] at hd
          exact hd
        · rw [hep] at hq
          exact absurd hq hpq

theorem fsWrite_fresh (d : DistFs) (p c : String) (h : fsHas d p = false) :
    fsWrite d p c = d ++ [(p, c)] := by
  unfold fsWrite
  congr 1
  apply List.filter_eq_self.mpr
  intro e he
  cases hc : (e.1 == p) with
  | false => rfl
  | true =>
    rw [(fsHas_true_iff _ _).mpr ⟨e, he, beq_iff_eq.mp hc⟩] at h
    exact Bool.noConfusion h

theorem fsHas_persist (d : DistFs) (p c q : String) (h : fsHas d q = true) :
    fsHas (fsWrite d p c) q = true := by
  rw [fsHas_fsWrite, h, Bool.or_true]

/-- The shape of a generated artist-page path: under `artists/`, ending in
`/index.html`, and not the roster index itself. -/
def isArtistPagePath (p : String) : Bool :=
  strStarts p ("artists/") && strEnds p ("/index.html") && !(p == "artists/index.html")

/-- Paths of the artist pages present in an output-directory state. -/
def artistPagesOf (d : DistFs) : List String :=
  (d.filter (fun e => isArtistPagePath e.1)).map (fun e => e.1)

theorem artistPagesOf_append (a b : DistFs) :
    artistPagesOf (a ++ b) = artistPagesOf a ++ artistPagesOf b := by
  simp [artistPagesOf, List.filter_append]

theorem artistPagesOf_fsWrite_notPage (d : DistFs) (p c : String)
    (h : isArtistPagePath p = false) :
    artistPagesOf (fsWrite d p c) = artistPagesOf d := by
  unfold artistPagesOf fsWrite
  rw [List.filter_append, List.map_append]
  have h1 : List.filter (fun e => isArtistPagePath e.1) [(p, c)] = ([] : DistFs) := by
    simp [h]
  rw [h1]
  simp only [List.map_nil, List.append_nil]
  rw [List.filter_filter]
  have h2 : ∀ e : String × String,
      (isArtistPagePath e.1 && !(e.1 == p)) = isArtistPagePath e.1 := by
    intro e
    cases hc : (e.1 == p) with
    | true =>
      rw [beq_iff_eq.mp hc, h]
      rfl
    | false => simp
  rw [List.filter_congr (fun e _ => h2 e)]

theorem artistPagesOf_fsWrite_page (d : DistFs) (p c : String)
    (hp : isArtistPagePath p = true) (hf : fsHas d p = false) :
    artistPagesOf (fsWrite d p c) = artistPagesOf d ++ [p] := by
  rw [fsWrite_fresh d p c hf, artistPagesOf_append]
  simp [artistPagesOf, hp]

theorem artistPagesOf_copyTree (root : String)
    (h : ∀ q, isArtistPagePath (root ++ q) = false) :
    ∀ (tree : DistFs) (d : DistFs),
      artistPagesOf (copyTree d root tree) = artistPagesOf d := by
  intro tree
  induction tree with
  | nil => intro d; rfl
  | cons f rest ih =>
    intro d
    rw [copyTree, ih, artistPagesOf_fsWrite_notPage _ _ _ (h f.1)]

theorem notPage_assets (q : String) : isArtistPagePath ("assets/" ++ q) = false := rfl

theorem notPage_admin (q : String) : isArtistPagePath ("admin/" ++ q) = false := rfl

theorem artistPagesOf_distStatic (inp : BuildInput) (t : DistFs)
    (hb : inp.biosAssets = none) :
    artistPagesOf (distStatic inp t) = [] := by
  unfold distStatic
  rw [hb]
  cases ha : inp.adminAssets with
  | none =>
    rw [artistPagesOf_fsWrite_notPage _ _ _ (by rfl),
      artistPagesOf_copyTree ("assets/") notPage_assets]
    rfl
  | some at2 =>
    rw [artistPagesOf_copyTree ("admin/") notPage_admin,
      artistPagesOf_fsWrite_notPage _ _ _ (by rfl),
      artistPagesOf_copyTree ("assets/") notPage_assets]
    rfl

theorem artistPagesOf_distFixedTop (inp : BuildInput) (t : DistFs)
    (hb : inp.biosAssets = none) :
    artistPagesOf (distFixedTop inp t) = [] := by
  unfold distFixedTop
  rw [artistPagesOf_fsWrite_notPage _ _ _ (by rfl),
    artistPagesOf_fsWrite_notPage _ _ _ (by rfl),
    artistPagesOf_fsWrite_notPage _ _ _ (by rfl)]
  exact artistPagesOf_distStatic inp t hb

theorem artistPagesOf_writeArtistPages (env : Env) (site : Site) :
    ∀ (as : List Artist) (d : DistFs),
      (∀ a ∈ as, isArtistPagePath (artistPagePath a) = true) →
      (as.map artistPagePath).Nodup →
      (∀ a ∈ as, fsHas d (artistPagePath a) = false) →
      artistPagesOf (writeArtistPages env site d as) =
        artistPagesOf d ++ as.map artistPagePath := by
  intro as
  induction as with
  | nil => intro d _ _ _; simp [writeArtistPages]
  | cons a rest ih =>
    intro d hpage hnodup hfresh
    rw [writeArtistPages]
    have hnotmem : ¬ artistPagePath a ∈ rest.map artistPagePath := by
      have := hnodup
      rw [List.map_cons, List.nodup_cons] at this
      exact this.1
    have h1 := ih (fsWrite d (artistPagePath a) (renderArtistPage env site d a))
      (fun b hb => hpage b (List.mem_cons_of_mem a hb))
      (by rw [List.map_cons, List.nodup_cons] at hnodup; exact hnodup.2)
      (fun b hb => by
        rw [fsHas_fsWrite]
        have hne : (artistPagePath a == artistPagePath b) = false := by
          cases hc : (artistPagePath a == artistPagePath b) with
          | false => rfl
          | true =>
            exact absurd (beq_iff_eq.mp hc ▸ List.mem_map_of_mem artistPagePath hb) hnotmem
        rw [hne, Bool.false_or]
        exact hfresh b (List.mem_cons_of_mem a hb))
    rw [h1, artistPagesOf_fsWrite_page _ _ _ (hpage a (List.mem_cons_self a rest))
      (hfresh a (List.mem_cons_self a rest))]
    simp

theorem artistPagesOf_distFinal (inp : BuildInput) (t : DistFs) :
    artistPagesOf (distFinal inp t) = artistPagesOf (distArtistsDone inp t) := by
  unfold distFinal
  by_cases hs : (!(renderSitemap inp.env inp.site (buildArtistsOf inp)).isEmpty) = true
  · simp only [hs, if_true]
    rw [artistPagesOf_fsWrite_notPage _ _ _ (by rfl),
      artistPagesOf_fsWrite_notPage _ _ _ (by rfl),
      artistPagesOf_fsWrite_notPage _ _ _ (by rfl),
      artistPagesOf_fsWrite_notPage _ _ _ (by rfl)]
  · simp only [Bool.not_eq_true] at hs
    simp only [hs]
    rw [if_neg (by simp)]
    rw [artistPagesOf_fsWrite_notPage _ _ _ (by rfl),
      artistPagesOf_fsWrite_notPage _ _ _ (by rfl),
      artistPagesOf_fsWrite_notPage _ _ _ (by rfl)]

theorem truthy_slug_facts (a : Artist) (h : truthyS a.slug = true) :
    jsShow a.slug = slugOf a ∧ slugOf a ≠ "" := by
  cases hs : a.slug with
  | none =>
    rw [hs] at h
    exact absurd h (by decide)
  | some s =>
    rw [hs] at h
    refine ⟨by simp [jsShow, slugOf, hs], ?_⟩
    intro he
    rw [slugOf, hs] at he
    simp only [Option.getD_some] at he
    subst he
    exact absurd h (by decide)

theorem rosterOk_props :
    ∀ (as : List Artist) (seen : List String), rosterOkFrom seen as = true →
      (∀ a ∈ as, truthyS a.slug = true ∧ truthyS a.name = true
          ∧ slugRegexMatches (slugOf a) = true)
        ∧ (as.map slugOf).Nodup
        ∧ (∀ a ∈ as, ¬ slugOf a ∈ seen) := by
  intro as
  induction as with
  | nil =>
    intro seen _
    exact ⟨by simp, by simp, by simp⟩
  | cons a rest ih =>
    intro seen h
    rw [rosterOkFrom, Bool.and_eq_true] at h
    obtain ⟨h1, h2⟩ := h
    simp only [entryOk, Bool.and_eq_true, Bool.not_eq_true'] at h1
    obtain ⟨⟨⟨hs, hn⟩, hr⟩, hc⟩ := h1
    obtain ⟨ihProps, ihNodup, ihSeen⟩ := ih (slugOf a :: seen) h2
    have hnotin : ¬ slugOf a ∈ seen := by
      intro hmem
      have h3 : seen.contains (slugOf a) = true := by
        unfold List.contains
        exact List.elem_iff.mpr hmem
      rw [h3] at hc
      exact Bool.noConfusion hc
    refine ⟨?_, ?_, ?_⟩
    · intro b hb
      rcases List.mem_cons.mp hb with hba | hbr
      · subst hba; exact ⟨hs, hn, hr⟩
      · exact ihProps b hbr
    · rw [List.map_cons, List.nodup_cons]
      refine ⟨?_, ihNodup⟩
      intro hmem
      obtain ⟨b, hbr, hbe⟩ := List.mem_map.mp hmem
      exact (ihSeen b hbr) (hbe ▸ List.mem_cons_self _ _)
    · intro b hb
      rcases List.mem_cons.mp hb with hba | hbr
      · subst hba; exact hnotin
      · intro hmem
        exact (ihSeen b hbr) (List.mem_cons_of_mem _ hmem)

theorem pagePath_isPage (s : String) (hs : s ≠ "") :
    isArtistPagePath ("artists/" ++ s ++ "/index.html") = true := by
  have hA : strStarts ("artists/" ++ s ++ "/index.html") ("artists/") = true := by
    unfold strStarts
    have h1 : ("artists/" ++ s ++ "/index.html").data =
        ("artists/").data ++ (s.data ++ ("/index.html").data) := by
      show ("artists/").data ++ s.data ++ ("/index.html").data = _
      rw [List.append_assoc]
    rw [h1, List.isPrefixOf_iff_prefix]
    exact List.prefix_append _ _
  have hB : strEnds ("artists/" ++ s ++ "/index.html") ("/index.html") = true := by
    unfold strEnds
    have h1 : ("artists/" ++ s ++ "/index.html").data =
        ("artists/".data ++ s.data) ++ ("/index.html").data := rfl
    rw [h1, List.reverse_append, List.isPrefixOf_iff_prefix]
    exact List.prefix_append _ _
  have hC : (("artists/" ++ s ++ "/index.html") == "artists/index.html") = false := by
    cases hc : (("artists/" ++ s ++ "/index.html") == "artists/index.html") with
    | false => rfl
    | true =>
      have he := beq_iff_eq.mp hc
      have hd := congrArg String.data he
      have h1 : ("artists/" ++ s ++ "/index.html").data =
          ("artists/".data ++ s.data) ++ ("/index.html").data := rfl
      rw [h1] at hd
      have hlen := congrArg List.length hd
      simp only [List.length_append] at hlen
      have hpos : 0 < s.data.length := List.length_pos.mpr (dataNeNil s hs)
      have h18 : ("artists/index.html").data.length = 18 := by decide
      rw [h18] at hlen
      have h8 : ("artists/").data.length = 8 := by decide
      have h11 : ("/index.html").data.length = 11 := by decide
      rw [h8, h11] at hlen
      omega
  simp [isArtistPagePath, hA, hB, hC]

theorem pagePath_inj (s t : String)
    (h : ("artists/" ++ s ++ "/index.html") = ("artists/" ++ t ++ "/index.html")) : s = t := by
  have hd := congrArg String.data h
  have h1 : ("artists/" ++ s ++ "/index.html").data =
      ("artists/".data ++ s.data) ++ ("/index.html").data := rfl
  have h2 : ("artists/" ++ t ++ "/index.html").data =
      ("artists/".data ++ t.data) ++ ("/index.html").data := rfl
  rw [h1, h2, List.append_assoc, List.append_assoc] at hd
  have h3 := List.append_cancel_left hd
  exact strDataEq s t (List.append_cancel_right h3)

theorem artistPagePath_eq (a : Artist) (h : truthyS a.slug = true) :
    artistPagePath a = "artists/" ++ slugOf a ++ "/index.html" := by
  unfold artistPagePath
  rw [(truthy_slug_facts a h).1]

theorem artistPagePath_isPage (a : Artist) (h : truthyS a.slug = true) :
    isArtistPagePath (artistPagePath a) = true := by
  rw [artistPagePath_eq a h]
  exact pagePath_isPage (slugOf a) (truthy_slug_facts a h).2

theorem artistPagePaths_nodup (as : List Artist)
    (hok : rosterOkFrom [] as = true) :
    (as.map artistPagePath).Nodup := by
  obtain ⟨hprops, hnodup, _⟩ := rosterOk_props as [] hok
  have hmap : as.map artistPagePath =
      (as.map slugOf).map (fun s => "artists/" ++ s ++ "/index.html") := by
    rw [List.map_map]
    apply List.map_congr_left
    intro a ha
    rw [Function.comp_apply, artistPagePath_eq a (hprops a ha).1]
  rw [hmap]
  exact hnodup.map (fun s t he => pagePath_inj s t he)

theorem fsHas_distFixedTop_index (inp : BuildInput) (t : DistFs) :
    fsHas (distFixedTop inp t) ("index.html") = true := by
  unfold distFixedTop
  apply fsHas_persist
  apply fsHas_persist
  rw [fsHas_fsWrite]
  simp

theorem fsHas_distFixedTop_artistsIndex (inp : BuildInput) (t : DistFs) :
    fsHas (distFixedTop inp t) ("artists/index.html") = true := by
  unfold distFixedTop
  apply fsHas_persist
  rw [fsHas_fsWrite]
  simp

theorem fsHas_distFixedTop_about (inp : BuildInput) (t : DistFs) :
    fsHas (distFixedTop inp t) ("about/index.html") = true := by
  unfold distFixedTop
  rw [fsHas_fsWrite]
  simp

theorem fsHas_writeArtistPages_mono (env : Env) (site : Site) :
    ∀ (as : List Artist) (d : DistFs) (q : String), fsHas d q = true →
      fsHas (writeArtistPages env site d as) q = true := by
  intro as
  induction as with
  | nil => intro d q hq; exact hq
  | cons a rest ih =>
    intro d q hq
    rw [writeArtistPages]
    exact ih _ q (fsHas_persist _ _ _ _ hq)

theorem fsHas_distFinal_mono (inp : BuildInput) (t : DistFs) (q : String)
    (hq : fsHas (distArtistsDone inp t) q = true) :
    fsHas (distFinal inp t) q = true := by
  unfold distFinal
  by_cases hsm : (!(renderSitemap inp.env inp.site (buildArtistsOf inp)).isEmpty) = true
  · simp only [hsm, if_true]
    exact fsHas_persist _ _ _ _ (fsHas_persist _ _ _ _ (fsHas_persist _ _ _ _
      (fsHas_persist _ _ _ _ hq)))
  · simp only [Bool.not_eq_true] at hsm
    simp only [hsm]
    rw [if_neg (by simp)]
    exact fsHas_persist _ _ _ _ (fsHas_persist _ _ _ _ (fsHas_persist _ _ _ _ hq))

theorem fsHas_distFinal_contact (inp : BuildInput) (t : DistFs) :
    fsHas (distFinal inp t) ("contact/index.html") = true := by
  unfold distFinal
  by_cases hsm : (!(renderSitemap inp.env inp.site (buildArtistsOf inp)).isEmpty) = true
  · simp only [hsm, if_true]
    apply fsHas_persist
    apply fsHas_persist
    apply fsHas_persist
    rw [fsHas_fsWrite]
    simp
  · simp only [Bool.not_eq_true] at hsm
    simp only [hsm]
    rw [if_neg (by simp)]
    apply fsHas_persist
    apply fsHas_persist
    rw [fsHas_fsWrite]
    simp

theorem fsHas_distFinal_notFound (inp : BuildInput) (t : DistFs) :
    fsHas (distFinal inp t) ("404.html") = true := by
  unfold distFinal
  by_cases hsm : (!(renderSitemap inp.env inp.site (buildArtistsOf inp)).isEmpty) = true
  · simp only [hsm, if_true]
    apply fsHas_persist
    apply fsHas_persist
    rw [fsHas_fsWrite]
    simp
  · simp only [Bool.not_eq_true] at hsm
    simp only [hsm]
    rw [if_neg (by simp)]
    apply fsHas_persist
    rw [fsHas_fsWrite]
    simp

theorem fsHas_distFinal_robots (inp : BuildInput) (t : DistFs) :
    fsHas (distFinal inp t) ("robots.txt") = true := by
  unfold distFinal
  by_cases hsm : (!(renderSitemap inp.env inp.site (buildArtistsOf inp)).isEmpty) = true
  · simp only [hsm, if_true]
    apply fsHas_persist
    rw [fsHas_fsWrite]
    simp
  · simp only [Bool.not_eq_true] at hsm
    simp only [hsm]
    rw [if_neg (by simp)]
    rw [fsHas_fsWrite]
    simp

theorem buildSiteFs_ok1 (inp : BuildInput) (d0 : DistFs) (t : DistFs)
    (hv : validateArtists (buildArtistsOf inp) = Except.ok ())
    (hassets : inp.assets = some t) :
    (buildSiteFs inp d0).1 = distFinal inp t := by
  simp [buildSiteFs, hv, hassets]

theorem buildSiteFs_ok2 (inp : BuildInput) (d0 : DistFs) (t : DistFs)
    (hv : validateArtists (buildArtistsOf inp) = Except.ok ())
    (hassets : inp.assets = some t) :
    (buildSiteFs inp d0).2 = none := by
  simp [buildSiteFs, hv, hassets]


/-- C10.  Implicit fallback for malformed `artists.json`: a parse result
that is neither an array nor an object with an `artists` array (an atom, an
object without the key, or an object whose `artists` value is not an array)
yields an empty roster, and a build over an empty roster succeeds and writes
a complete site — all fixed pages present and zero artist pages. -/
theorem artistsData_fallback :
    (extractArtists ArtistsJson.jAtom = []
        ∧ extractArtists (ArtistsJson.jObj none) = []
        ∧ ∀ f, (∀ items, f ≠ some (ArtistsJson.jArr items)) →
            extractArtists (ArtistsJson.jObj f) = [])
      ∧ (∀ inp d0 t, buildArtistsOf inp = [] → inp.assets = some t →
          inp.biosAssets = none →
          (buildSiteFs inp d0).2 = none
            ∧ artistPagesOf (buildSiteFs inp d0).1 = []
            ∧ fsHas (buildSiteFs inp d0).1 ("index.html") = true
            ∧ fsHas (buildSiteFs inp d0).1 ("artists/index.html") = true
            ∧ fsHas (buildSiteFs inp d0).1 ("about/index.html") = true
            ∧ fsHas (buildSiteFs inp d0).1 ("contact/index.html") = true
            ∧ fsHas (buildSiteFs inp d0).1 ("404.html") = true
            ∧ fsHas (buildSiteFs inp d0).1 ("robots.txt") = true) := by
  refine ⟨⟨rfl, rfl, ?_⟩, ?_⟩
  · intro f hf
    cases f with
    | none => rfl
    | some v =>
      cases v with
      | jArr items => exact absurd rfl (hf items)
      | jObj g => rfl
      | jAtom => rfl
  · intro inp d0 t hempty hassets hbios
    have hv : validateArtists (buildArtistsOf inp) = Except.ok () := by
      rw [hempty]
      rfl
    have hdone : ∀ q, fsHas (distFixedTop inp t) q = true →
        fsHas (distArtistsDone inp t) q = true := by
      intro q hq
      unfold distArtistsDone
      exact fsHas_writeArtistPages_mono inp.env inp.site (buildArtistsOf inp) _ q hq
    refine ⟨buildSiteFs_ok2 inp d0 t hv hassets, ?_, ?_, ?_, ?_, ?_, ?_, ?_⟩
    · rw [buildSiteFs_ok1 inp d0 t hv hassets, artistPagesOf_distFinal]
      unfold distArtistsDone
      rw [hempty, writeArtistPages]
      exact artistPagesOf_distFixedTop inp t hbios
    · rw [buildSiteFs_ok1 inp d0 t hv hassets]
      exact fsHas_distFinal_mono inp t _ (hdone _ (fsHas_distFixedTop_index inp t))
    · rw [buildSiteFs_ok1 inp d0 t hv hassets]
      exact fsHas_distFinal_mono inp t _ (hdone _ (fsHas_distFixedTop_artistsIndex inp t))
    · rw [buildSiteFs_ok1 inp d0 t hv hassets]
      exact fsHas_distFinal_mono inp t _ (hdone _ (fsHas_distFixedTop_about inp t))
    · rw [buildSiteFs_ok1 inp d0 t hv hassets]
      exact fsHas_distFinal_contact inp t
    · rw [buildSiteFs_ok1 inp d0 t hv hassets]
      exact fsHas_distFinal_notFound inp t
    · rw [buildSiteFs_ok1 inp d0 t hv hassets]
      exact fsHas_distFinal_robots inp t

/-- Build input whose `artists.json` parses to a plain string. -/
def inpAtomArtists : BuildInput :=
  ⟨siteMinimal, .jAtom, none, some [], none, none, envNone⟩

theorem artistsData_fallback_witness :
    (buildSiteFs inpAtomArtists []).2 = none
      ∧ artistPagesOf (buildSiteFs inpAtomArtists []).1 = []
      ∧ fsHas (buildSiteFs inpAtomArtists []).1 ("index.html") = true
      ∧ fsHas (buildSiteFs inpAtomArtists []).1 ("artists/index.html") = true
      ∧ fsHas (buildSiteFs inpAtomArtists []).1 ("about/index.html") = true
      ∧ fsHas (buildSiteFs inpAtomArtists []).1 ("contact/index.html") = true
      ∧ fsHas (buildSiteFs inpAtomArtists []).1 ("404.html") = true
      ∧ fsHas (buildSiteFs inpAtomArtists []).1 ("robots.txt") = true :=
  artistsData_fallback.2 inpAtomArtists [] [] (by rfl) (by rfl) (by rfl)

/-- C5 (amended).  Photo fallback policy as the code implements it: the
portrait is the placeholder when `photo.path` is absent, does not start with
`/`, or names no existing file in the output directory at render time;
otherwise the configured path is used as-is — no `/assets/` prefix is
required.  This selection is the one shared by the roster card, the artist
page and the contact-page team cards. -/
theorem photoPlaceholder_amended :
    (∀ d : DistFs, portraitPathFor d none = "/assets/people/placeholder.svg")
      ∧ (∀ (d : DistFs) (ph : Photo), ph.path = none →
          portraitPathFor d (some ph) = "/assets/people/placeholder.svg")
      ∧ (∀ (d : DistFs) (ph : Photo) (p : String), ph.path = some p →
          strStarts p ("/") = false →
          portraitPathFor d (some ph) = "/assets/people/placeholder.svg")
      ∧ (∀ (d : DistFs) (ph : Photo) (p : String), ph.path = some p →
          strStarts p ("/") = true → fsHas d (stripLeadingSlashes p) = false →
          portraitPathFor d (some ph) = "/assets/people/placeholder.svg")
      ∧ (∀ (d : DistFs) (ph : Photo) (p : String), ph.path = some p →
          strStarts p ("/") = true → fsHas d (stripLeadingSlashes p) = true →
          portraitPathFor d (some ph) = p) := by
  refine ⟨fun d => rfl, fun d ph h => ?_, fun d ph p h hs => ?_, fun d ph p h hs hf => ?_,
    fun d ph p h hs hf => ?_⟩
  · simp [portraitPathFor, assetExistsInDist, Option.bind, h]
  · simp [portraitPathFor, assetExistsInDist, Option.bind, h, hs]
  · simp [portraitPathFor, assetExistsInDist, Option.bind, h, hs, hf]
  · simp [portraitPathFor, assetExistsInDist, Option.bind, h, hs, hf]

/-- Photo whose public path points at the `.nojekyll` marker file, which the
build writes into the output directory before rendering any page. -/
def photoNojekyll : Photo :=
  ⟨some "/.nojekyll", none, none, none⟩

/-- Artist configured with `photoNojekyll`. -/
def artistAna : Artist :=
  ⟨some "ana-lee", some "Ana Lee", some "Soprano", none, none, none, none, none, [],
    some photoNojekyll⟩

/-- Build input for the C5 counterexample. -/
def inpAna : BuildInput :=
  ⟨siteMinimal, .jArr [artistAna], none, some [], none, none, envNone⟩

theorem photoPlaceholder_amended_witness :
    portraitPathFor [(".nojekyll", "")] (some photoNojekyll) = "/.nojekyll"
      ∧ portraitPathFor [] (some photoNojekyll) = "/assets/people/placeholder.svg" :=
  ⟨photoPlaceholder_amended.2.2.2.2 [(".nojekyll", "")] photoNojekyll ("/.nojekyll")
      (by rfl) (by rfl) (by rfl),
    photoPlaceholder_amended.2.2.2.1 [] photoNojekyll ("/.nojekyll")
      (by rfl) (by rfl) (by rfl)⟩

/-- C5 (counterexample).  The claim requires the placeholder whenever
`photo.path` does not begin with `/assets/`; the code only checks that the
path starts with `/` and names an existing file.  With `photo.path`
`/.nojekyll` the build succeeds and the artist page renders the portrait
from `/.nojekyll` — which does not begin with `/assets/` — instead of the
placeholder. -/
theorem photoPlaceholder_counterexample :
    strStarts ("/.nojekyll") ("/assets/") = false
      ∧ (buildSiteFs inpAna []).2 = none
      ∧ fsLookup (buildSiteFs inpAna []).1 (artistPagePath artistAna) =
          some (renderArtistPage envNone siteMinimal (distFixedTop inpAna []) artistAna)
      ∧ portraitPathFor (distFixedTop inpAna []) artistAna.photo = "/.nojekyll"
      ∧ ("/.nojekyll" : String) ≠ "/assets/people/placeholder.svg" := by
  refine ⟨by rfl, by rfl, by rfl, by rfl, by decide⟩

theorem flatten_htmlEntity_id :
    ∀ (l : List Char), (∀ c ∈ l, htmlEntity c = [c]) → (l.map htmlEntity).flatten = l := by
  intro l
  induction l with
  | nil => intro _; rfl
  | cons c rest ih =>
    intro h
    rw [List.map_cons, List.flatten_cons, h c (List.mem_cons_self c rest),
      ih (fun x hx => h x (List.mem_cons_of_mem c hx))]
    rfl

theorem escapeHtml_id (s : String) (h : ∀ c ∈ s.data, htmlEntity c = [c]) :
    escapeHtml s = s := by
  apply strDataEq
  have h1 : (escapeHtml s).data = escapeList s.data := rfl
  rw [h1, escapeList_eq_flatten, flatten_htmlEntity_id s.data h]

theorem htmlEntity_eq_self_of_slugish (c : Char) (h : isSlugChar c = true ∨ c = '-') :
    htmlEntity c = [c] := by
  have hne : ∀ r : Char, (isSlugChar r = true ∨ r = '-') → (r = '&' ∨ r = '<' ∨ r = '>'
      ∨ r = '"' ∨ r = aposChar) → False := by
    intro r hr habs
    rcases hr with hr | hr
    · rcases habs with he | he | he | he | he <;> rw [he] at hr <;> exact absurd hr (by decide)
    · subst hr
      rcases habs with he | he | he | he | he <;> exact absurd he (by decide)
  unfold htmlEntity
  by_cases h1 : c = '&'
  · exact absurd (Or.inl h1) (fun x => hne c h x)
  by_cases h2 : c = '<'
  · exact absurd (Or.inr (Or.inl h2)) (fun x => hne c h x)
  by_cases h3 : c = '>'
  · exact absurd (Or.inr (Or.inr (Or.inl h3))) (fun x => hne c h x)
  by_cases h4 : c = '"'
  · exact absurd (Or.inr (Or.inr (Or.inr (Or.inl h4)))) (fun x => hne c h x)
  by_cases h5 : c = aposChar
  · exact absurd (Or.inr (Or.inr (Or.inr (Or.inr h5)))) (fun x => hne c h x)
  simp [h1, h2, h3, h4, h5]

theorem splitDash_cons_ne (c : Char) (rest : List Char) (hc : ¬ c = '-') :
    splitDash (c :: rest) =
      match splitDash rest with
      | [] => [[c]]
      | g :: gs => (c :: g) :: gs := by
  rw [splitDash]
  exact hc

theorem splitDash_ne_nil : ∀ cs : List Char, splitDash cs ≠ [] := by
  intro cs
  induction cs with
  | nil => simp [splitDash]
  | cons c rest ih =>
    by_cases hc : c = '-'
    · subst hc
      simp [splitDash]
    · rw [splitDash_cons_ne c rest hc]
      rcases h : splitDash rest with _ | ⟨g, gs⟩
      · exact absurd h ih
      · simp

theorem mem_splitDash : ∀ (cs : List Char) (c : Char), c ∈ cs →
    c = '-' ∨ ∃ g ∈ splitDash cs, c ∈ g := by
  intro cs
  induction cs with
  | nil => intro c hc; exact absurd hc (List.not_mem_nil c)
  | cons x rest ih =>
    intro c hc
    by_cases hx : x = '-'
    · subst hx
      rcases List.mem_cons.mp hc with hc1 | hc2
      · exact Or.inl hc1
      · rcases ih c hc2 with h | ⟨g, hg, hcg⟩
        · exact Or.inl h
        · refine Or.inr ⟨g, ?_, hcg⟩
          rw [splitDash]
          exact List.mem_cons_of_mem _ hg
    · rcases List.mem_cons.mp hc with hc1 | hc2
      · subst hc1
        refine Or.inr ?_
        rcases hsp : splitDash rest with _ | ⟨g, gs⟩
        · exact absurd hsp (splitDash_ne_nil rest)
        · refine ⟨c :: g, ?_, List.mem_cons_self c g⟩
          have h2 : splitDash (c :: rest) = (c :: g) :: gs := by
            rw [splitDash_cons_ne c rest hx, hsp]
          rw [h2]
          exact List.mem_cons_self _ _
      · rcases ih c hc2 with h | ⟨g, hg, hcg⟩
        · exact Or.inl h
        · rcases hsp : splitDash rest with _ | ⟨g2, gs⟩
          · exact absurd hsp (splitDash_ne_nil rest)
          · have hx2 : splitDash (x :: rest) = (x :: g2) :: gs := by
              rw [splitDash_cons_ne x rest hx, hsp]
            rw [hsp] at hg
            rcases List.mem_cons.mp hg with hgg | hggs
            · subst hgg
              exact Or.inr ⟨x :: g, by rw [hx2]; exact List.mem_cons_self _ _,
                List.mem_cons_of_mem x hcg⟩
            · exact Or.inr ⟨g, by rw [hx2]; exact List.mem_cons_of_mem _ hggs, hcg⟩

theorem slug_chars (s : String) (h : slugRegexMatches s = true) :
    ∀ c ∈ s.data, isSlugChar c = true ∨ c = '-' := by
  intro c hc
  rcases mem_splitDash s.data c hc with hd | ⟨g, hg, hcg⟩
  · exact Or.inr hd
  · unfold slugRegexMatches at h
    rw [List.all_eq_true] at h
    have := h g hg
    rw [Bool.and_eq_true] at this
    rw [List.all_eq_true] at this
    exact Or.inl (this.2 c hcg)

theorem strStarts_append (root p : String) : strStarts (root ++ p) root = true := by
  unfold strStarts
  have h1 : (root ++ p).data = root.data ++ p.data := rfl
  rw [h1, List.isPrefixOf_iff_prefix]
  exact List.prefix_append _ _

theorem append_ne_of_notStart (root p q : String) (h : strStarts q root = false) :
    ¬ (root ++ p) = q := by
  intro he
  rw [← he, strStarts_append root p] at h
  exact Bool.noConfusion h

theorem fsHas_fsWrite_other (d : DistFs) (p c q : String) (h : ¬ p = q) :
    fsHas (fsWrite d p c) q = fsHas d q := by
  rw [fsHas_fsWrite]
  have hb : (p == q) = false := by
    cases hc : (p == q) with
    | false => rfl
    | true => exact absurd (beq_iff_eq.mp hc) h
  rw [hb, Bool.false_or]

theorem fsHas_copyTree_other (root q : String) (h : strStarts q root = false) :
    ∀ (tree d : DistFs), fsHas (copyTree d root tree) q = fsHas d q := by
  intro tree
  induction tree with
  | nil => intro d; rfl
  | cons f rest ih =>
    intro d
    rw [copyTree, ih, fsHas_fsWrite_other _ _ _ _ (append_ne_of_notStart root f.1 q h)]

theorem fsHas_distStatic_other (inp : BuildInput) (t : DistFs) (q : String)
    (h1 : strStarts q ("assets/") = false)
    (h2 : strStarts q ("admin/") = false)
    (h3 : strStarts q ("artists/bios/") = false)
    (h4 : ¬ (".nojekyll" : String) = q) :
    fsHas (distStatic inp t) q = false := by
  unfold distStatic
  cases hb : inp.biosAssets with
  | some bt =>
    rw [fsHas_copyTree_other _ _ h3]
    cases ha : inp.adminAssets with
    | some at2 =>
      rw [fsHas_copyTree_other _ _ h2, fsHas_fsWrite_other _ _ _ _ h4,
        fsHas_copyTree_other _ _ h1]
      rfl
    | none =>
      rw [fsHas_fsWrite_other _ _ _ _ h4, fsHas_copyTree_other _ _ h1]
      rfl
  | none =>
    cases ha : inp.adminAssets with
    | some at2 =>
      rw [fsHas_copyTree_other _ _ h2, fsHas_fsWrite_other _ _ _ _ h4,
        fsHas_copyTree_other _ _ h1]
      rfl
    | none =>
      rw [fsHas_fsWrite_other _ _ _ _ h4, fsHas_copyTree_other _ _ h1]
      rfl

theorem fsHas_distFixedTop_other (inp : BuildInput) (t : DistFs) (q : String)
    (h1 : strStarts q ("assets/") = false)
    (h2 : strStarts q ("admin/") = false)
    (h3 : strStarts q ("artists/bios/") = false)
    (h4 : ¬ (".nojekyll" : String) = q)
    (h5 : ¬ ("index.html" : String) = q)
    (h6 : ¬ ("artists/index.html" : String) = q)
    (h7 : ¬ ("about/index.html" : String) = q) :
    fsHas (distFixedTop inp t) q = false := by
  unfold distFixedTop
  rw [fsHas_fsWrite_other _ _ _ _ h7, fsHas_fsWrite_other _ _ _ _ h6,
    fsHas_fsWrite_other _ _ _ _ h5]
  exact fsHas_distStatic_other inp t q h1 h2 h3 h4

theorem fsHas_writeArtistPages_other (env : Env) (site : Site) :
    ∀ (as : List Artist) (d : DistFs) (q : String),
      (∀ a ∈ as, ¬ artistPagePath a = q) →
      fsHas (writeArtistPages env site d as) q = fsHas d q := by
  intro as
  induction as with
  | nil => intro d q _; rfl
  | cons a rest ih =>
    intro d q h
    rw [writeArtistPages, ih _ _ (fun b hb => h b (List.mem_cons_of_mem a hb)),
      fsHas_fsWrite_other _ _ _ _ (h a (List.mem_cons_self a rest))]

theorem pagePath_ne_of_notPage (a : Artist) (q : String)
    (hp : isArtistPagePath (artistPagePath a) = true)
    (hq : isArtistPagePath q = false) :
    ¬ artistPagePath a = q := by
  intro he
  rw [he, hq] at hp
  exact Bool.noConfusion hp

theorem fsLookup_fsWrite_self (d : DistFs) (p c : String) :
    fsLookup (fsWrite d p c) p = some c := by
  unfold fsLookup fsWrite
  rw [List.find?_append]
  have h1 : List.find? (fun e => e.1 == p) (d.filter (fun e => !(e.1 == p))) = none := by
    apply List.find?_eq_none.mpr
    intro e he
    have h2 := (List.mem_filter.mp he).2
    intro h3
    rw [h3] at h2
    exact Bool.noConfusion h2
  rw [h1]
  simp [List.find?]

theorem ensureTrailingSlash_ends (x : String) :
    ensureTrailingSlash (x ++ "/") = x ++ "/" := by
  unfold ensureTrailingSlash strEnds
  have h1 : (x ++ "/").data.reverse = '/' :: x.data.reverse := by
    have h2 : (x ++ "/").data = x.data ++ ['/'] := rfl
    rw [h2, List.reverse_append]
    rfl
  rw [h1]
  have h3 : ("/").data.reverse = ['/'] := by decide
  rw [h3]
  have h4 : List.isPrefixOf ['/'] ('/' :: x.data.reverse) = true := by
    rw [List.isPrefixOf_iff_prefix]
    exact ⟨x.data.reverse, rfl⟩
  rw [h4]
  rfl

theorem slugUrl_inj (s t : String)
    (h : ("/artists/" ++ s ++ "/") = ("/artists/" ++ t ++ "/")) : s = t := by
  have hd := congrArg String.data h
  have h1 : ("/artists/" ++ s ++ "/").data =
      ("/artists/".data ++ s.data) ++ ("/").data := rfl
  have h2 : ("/artists/" ++ t ++ "/").data =
      ("/artists/".data ++ t.data) ++ ("/").data := rfl
  rw [h1, h2, List.append_assoc, List.append_assoc] at hd
  have h3 := List.append_cancel_left hd
  exact strDataEq s t (List.append_cancel_right h3)

theorem slugUrl_ne_short (s q : String) (hs : s ≠ "") (hq : q.data.length ≤ 9) :
    ¬ ("/artists/" ++ s ++ "/") = q := by
  intro he
  have hd := congrArg String.data he
  have h1 : ("/artists/" ++ s ++ "/").data =
      ("/artists/".data ++ s.data) ++ ("/").data := rfl
  rw [h1] at hd
  have hlen := congrArg List.length hd
  simp only [List.length_append] at hlen
  have hpos : 0 < s.data.length := List.length_pos.mpr (dataNeNil s hs)
  have h9 : ("/artists/").data.length = 9 := by decide
  have hsl : ("/").data.length = 1 := by decide
  rw [h9, hsl] at hlen
  omega

theorem strStarts_slugUrl (s : String) :
    strStarts ("/artists/" ++ s ++ "/") ("/") = true := by
  unfold strStarts
  rw [List.isPrefixOf_iff_prefix]
  have h1 : ("/artists/" ++ s ++ "/").data =
      ("/").data ++ (("artists/").data ++ s.data ++ ("/").data) := by
    show ("/artists/").data ++ s.data ++ ("/").data = _
    have h2 : ("/artists/").data = ("/").data ++ ("artists/").data := by decide
    rw [h2, List.append_assoc, List.append_assoc, List.append_assoc]
  rw [h1]
  exact List.prefix_append _ _

theorem sitePathForUrl_nobase (env : Env) (site : Site) (baseUrl p : String)
    (hbp : resolveBasePath env site = "") (hp : strStarts p ("/") = true) :
    sitePathForUrl env site baseUrl p = p := by
  simp [sitePathForUrl, hp, hbp]

theorem safeJoin_example (p : String) (hp : strStarts p ("/") = true) :
    safeJoinUrl ("https://example.com") p = "https://example.com" ++ p := by
  have h1 : normalizeBaseUrl (some "https://example.com") = "https://example.com" := by decide
  have h2 : ("https://example.com" : String).isEmpty = false := by decide
  have h3 : ("https://example.com" : String) ++ "" = "https://example.com" := by decide
  simp [safeJoinUrl, h1, h2, h3, hp]

theorem strIsEmpty_false (s : String) (h : s ≠ "") : s.isEmpty = false := by
  cases he : s.isEmpty
  · rfl
  · exact absurd ((String.isEmpty_iff _).mp he) h

theorem locPrefix (p : String) :
    ("  <url><loc>" ++ ("https://example.com" ++ p)) =
      ("  <url><loc>https://example.com" ++ p) := by
  apply strDataEq
  have h1 : ("  <url><loc>" ++ ("https://example.com" ++ p)).data =
      ("  <url><loc>").data ++ (("https://example.com").data ++ p.data) := rfl
  have h2 : ("  <url><loc>https://example.com" ++ p).data =
      ("  <url><loc>https://example.com").data ++ p.data := rfl
  have h3 : ("  <url><loc>https://example.com").data =
      ("  <url><loc>").data ++ ("https://example.com").data := by decide
  rw [h1, h2, h3, List.append_assoc]

theorem escape_example_slugUrl (s : String) (h : slugRegexMatches s = true) :
    escapeHtml ("https://example.com" ++ ("/artists/" ++ s ++ "/")) =
      "https://example.com" ++ ("/artists/" ++ s ++ "/") := by
  apply escapeHtml_id
  intro c hc
  have h1 : ("https://example.com" ++ ("/artists/" ++ s ++ "/")).data =
      ("https://example.com").data ++ ((("/artists/").data ++ s.data) ++ ("/").data) := rfl
  rw [h1] at hc
  rcases List.mem_append.mp hc with hbase | hrest
  · exact (by decide : ∀ c ∈ ("https://example.com").data, htmlEntity c = [c]) c hbase
  · rcases List.mem_append.mp hrest with hlit | hslash
    · rcases List.mem_append.mp hlit with hl | hs2
      · exact (by decide : ∀ c ∈ ("/artists/").data, htmlEntity c = [c]) c hl
      · exact htmlEntity_eq_self_of_slugish c (slug_chars s h c hs2)
    · exact (by decide : ∀ c ∈ ("/").data, htmlEntity c = [c]) c hslash

theorem sitemapEntry_fixed (env : Env) (site : Site)
    (hbp : resolveBasePath env site = "") (p : String)
    (hstart : strStarts p ("/") = true) (he : ensureTrailingSlash p = p)
    (hesc : escapeHtml ("https://example.com" ++ p) = "https://example.com" ++ p) :
    sitemapEntry env site ("https://example.com") p =
      "  <url><loc>https://example.com" ++ p ++ "</loc></url>\n" := by
  unfold sitemapEntry
  rw [he, sitePathForUrl_nobase env site _ p hbp hstart, safeJoin_example p hstart,
    hesc, locPrefix]

theorem sitemapEntry_example (env : Env) (site : Site) (artists : List Artist)
    (hbp : resolveBasePath env site = "")
    (hprops : ∀ a ∈ artists, truthyS a.slug = true ∧ slugRegexMatches (slugOf a) = true) :
    ∀ p ∈ sitemapUrls artists,
      sitemapEntry env site ("https://example.com") p =
        "  <url><loc>https://example.com" ++ p ++ "</loc></url>\n" := by
  intro p hp
  unfold sitemapUrls at hp
  rcases List.mem_append.mp hp with hp1 | hpc
  · rcases List.mem_append.mp hp1 with hpf | hpm
    · simp only [List.mem_cons, List.not_mem_nil, or_false] at hpf
      rcases hpf with h | h | h <;> subst h
      · exact sitemapEntry_fixed env site hbp _ (by decide) (by decide) (by decide)
      · exact sitemapEntry_fixed env site hbp _ (by decide) (by decide) (by decide)
      · exact sitemapEntry_fixed env site hbp _ (by decide) (by decide) (by decide)
    · obtain ⟨a, ha, hpa⟩ := List.mem_map.mp hpm
      obtain ⟨hslug, hmatch⟩ := hprops a ha
      have hjs : jsShow a.slug = slugOf a := (truthy_slug_facts a hslug).1
      subst hpa
      rw [hjs]
      exact sitemapEntry_fixed env site hbp ("/artists/" ++ slugOf a ++ "/")
        (strStarts_slugUrl (slugOf a)) (ensureTrailingSlash_ends ("/artists/" ++ slugOf a))
        (escape_example_slugUrl (slugOf a) hmatch)
  · simp only [List.mem_cons, List.not_mem_nil, or_false] at hpc
    subst hpc
    exact sitemapEntry_fixed env site hbp _ (by decide) (by decide) (by decide)

theorem sitemapUrls_nodup (artists : List Artist) (hok : rosterOkFrom [] artists = true) :
    (sitemapUrls artists).Nodup := by
  obtain ⟨hprops, hnodup, _⟩ := rosterOk_props artists [] hok
  have hmap : artists.map (fun a => "/artists/" ++ jsShow a.slug ++ "/") =
      (artists.map slugOf).map (fun s => "/artists/" ++ s ++ "/") := by
    rw [List.map_map]
    apply List.map_congr_left
    intro a ha
    have h2 := (truthy_slug_facts a (hprops a ha).1).1
    simp only [Function.comp_apply, h2]
  have hmem : ∀ x ∈ artists.map (fun a => "/artists/" ++ jsShow a.slug ++ "/"),
      ∃ s, s ≠ "" ∧ x = "/artists/" ++ s ++ "/" := by
    intro x hx
    rw [hmap] at hx
    obtain ⟨s, hs, hxe⟩ := List.mem_map.mp hx
    obtain ⟨a, ha, hsa⟩ := List.mem_map.mp hs
    refine ⟨s, ?_, hxe.symm⟩
    rw [← hsa]
    exact (truthy_slug_facts a (hprops a ha).1).2
  unfold sitemapUrls
  rw [List.append_assoc, List.nodup_append]
  refine ⟨by decide, ?_, ?_⟩
  · rw [List.nodup_append]
    refine ⟨?_, by decide, ?_⟩
    · rw [hmap]
      exact hnodup.map (fun s t he => slugUrl_inj s t he)
    · intro x hx hcon
      obtain ⟨s, hsne, hxe⟩ := hmem x hx
      simp only [List.mem_cons, List.not_mem_nil, or_false] at hcon
      rw [hxe] at hcon
      exact slugUrl_ne_short s ("/contact/") hsne (by decide) hcon
  · intro x hx hcon
    simp only [List.mem_cons, List.not_mem_nil, or_false] at hx
    rcases List.mem_append.mp hcon with hm | hc
    · obtain ⟨s, hsne, hxe⟩ := hmem x hm
      rcases hx with h | h | h
      · exact slugUrl_ne_short s ("/") hsne (by decide) (by rw [← hxe]; exact h)
      · exact slugUrl_ne_short s ("/artists/") hsne (by decide) (by rw [← hxe]; exact h)
      · exact slugUrl_ne_short s ("/about/") hsne (by decide) (by rw [← hxe]; exact h)
    · simp only [List.mem_cons, List.not_mem_nil, or_false] at hc
      rcases hx with h | h | h <;> rw [h] at hc <;> exact absurd hc (by decide)

theorem renderSitemap_nonempty (env : Env) (site : Site) (artists : List Artist)
    (hb : resolveBaseUrl env site ≠ "") :
    (!(renderSitemap env site artists).isEmpty) = true := by
  unfold renderSitemap
  simp only [strIsEmpty_false _ hb, Bool.false_eq_true, if_false]
  cases he : (("<?xml version=\"1.0\" encoding=\"UTF-8\"?>\n<urlset xmlns=\"http://www.sitemaps.org/schemas/sitemap/0.9\">\n"
      ++ joinSep ("") ((sitemapUrls artists).map (sitemapEntry env site (resolveBaseUrl env site)))
      ++ "</urlset>\n")).isEmpty with
  | false => rfl
  | true =>
    have h0 := (String.isEmpty_iff _).mp he
    have hd := congrArg String.data h0
    have h1 : (("<?xml version=\"1.0\" encoding=\"UTF-8\"?>\n<urlset xmlns=\"http://www.sitemaps.org/schemas/sitemap/0.9\">\n"
        ++ joinSep ("") ((sitemapUrls artists).map (sitemapEntry env site (resolveBaseUrl env site)))
        ++ "</urlset>\n")).data =
        (("<?xml version=\"1.0\" encoding=\"UTF-8\"?>\n<urlset xmlns=\"http://www.sitemaps.org/schemas/sitemap/0.9\">\n").data
          ++ (joinSep ("") ((sitemapUrls artists).map (sitemapEntry env site (resolveBaseUrl env site)))).data)
          ++ ("</urlset>\n").data := rfl
    rw [h1] at hd
    have hz : ("" : String).data = [] := by decide
    rw [hz, List.append_eq_nil, List.append_eq_nil] at hd
    exact absurd hd.1.1 (by decide)

/-- C6.  Sitemap emission: with no base URL configured the sitemap renders
empty and no `sitemap.xml` file exists in the built output; with a base URL
configured the built output contains `sitemap.xml` holding exactly the
rendered sitemap; and for the base URL `https://example.com` (and no base
path) the sitemap is the header, one `<loc>` entry
`https://example.com/<path>/` per page path, and the footer, where the page
paths are pairwise distinct — every page path appears exactly once. -/
theorem sitemap_spec :
    (∀ inp d0 t, resolveBaseUrl inp.env inp.site = "" →
        validateArtists (buildArtistsOf inp) = Except.ok () → inp.assets = some t →
        renderSitemap inp.env inp.site (buildArtistsOf inp) = ""
          ∧ fsHas (buildSiteFs inp d0).1 ("sitemap.xml") = false)
      ∧ (∀ inp d0 t, resolveBaseUrl inp.env inp.site ≠ "" →
          validateArtists (buildArtistsOf inp) = Except.ok () → inp.assets = some t →
          fsLookup (buildSiteFs inp d0).1 ("sitemap.xml") =
            some (renderSitemap inp.env inp.site (buildArtistsOf inp)))
      ∧ (∀ env site artists, resolveBaseUrl env site = "https://example.com" →
          resolveBasePath env site = "" → rosterOkFrom [] artists = true →
          renderSitemap env site artists =
            "<?xml version=\"1.0\" encoding=\"UTF-8\"?>\n<urlset xmlns=\"http://www.sitemaps.org/schemas/sitemap/0.9\">\n"
              ++ joinSep ("") ((sitemapUrls artists).map
                  (fun p => "  <url><loc>https://example.com" ++ p ++ "</loc></url>\n"))
              ++ "</urlset>\n"
            ∧ (sitemapUrls artists).Nodup
            ∧ ∀ p ∈ sitemapUrls artists, (sitemapUrls artists).count p = 1) := by
  refine ⟨?_, ?_, ?_⟩
  · intro inp d0 t hb hv hassets
    have h0 : ("" : String).isEmpty = true := by decide
    have hs : renderSitemap inp.env inp.site (buildArtistsOf inp) = "" := by
      unfold renderSitemap
      simp only [hb, h0, if_true]
    refine ⟨hs, ?_⟩
    rw [buildSiteFs_ok1 inp d0 t hv hassets]
    unfold distFinal
    have h1 : (!("" : String).isEmpty) = false := by decide
    simp only [hs, h1, Bool.false_eq_true, if_false]
    rw [fsHas_fsWrite_other _ _ _ _ (by decide : ¬ ("robots.txt" : String) = "sitemap.xml"),
      fsHas_fsWrite_other _ _ _ _ (by decide : ¬ ("404.html" : String) = "sitemap.xml"),
      fsHas_fsWrite_other _ _ _ _ (by decide : ¬ ("contact/index.html" : String) = "sitemap.xml")]
    unfold distArtistsDone
    obtain ⟨hprops, _, _⟩ :=
      rosterOk_props (buildArtistsOf inp) [] ((validateArtistsAux_ok_iff _ []).mp hv)
    rw [fsHas_writeArtistPages_other inp.env inp.site _ _ _ (fun a ha =>
      pagePath_ne_of_notPage a _ (artistPagePath_isPage a (hprops a ha).1)
        (by decide : isArtistPagePath ("sitemap.xml") = false))]
    exact fsHas_distFixedTop_other inp t _ (by decide) (by decide) (by decide) (by decide)
      (by decide) (by decide) (by decide)
  · intro inp d0 t hb hv hassets
    rw [buildSiteFs_ok1 inp d0 t hv hassets]
    unfold distFinal
    simp only [renderSitemap_nonempty inp.env inp.site (buildArtistsOf inp) hb, if_true]
    exact fsLookup_fsWrite_self _ _ _
  · intro env site artists hb hbp hok
    obtain ⟨hprops, _, _⟩ := rosterOk_props artists [] hok
    have hnodup := sitemapUrls_nodup artists hok
    refine ⟨?_, hnodup, fun p hp => List.count_eq_one_of_mem hnodup hp⟩
    unfold renderSitemap
    have h2 : ("https://example.com" : String).isEmpty = false := by decide
    simp only [hb, h2, Bool.false_eq_true, if_false]
    have hmapeq : (sitemapUrls artists).map (sitemapEntry env site ("https://example.com")) =
        (sitemapUrls artists).map
          (fun p => "  <url><loc>https://example.com" ++ p ++ "</loc></url>\n") :=
      List.map_congr_left (sitemapEntry_example env site artists hbp
        (fun a ha => ⟨(hprops a ha).1, (hprops a ha).2.2⟩))
    rw [hmapeq]

/-- Site configured with the base URL `https://example.com`. -/
def siteExample : Site :=
  ⟨some "Test Agency", some "A test agency.", some "https://example.com", none, none, none⟩

/-- Build input for the sitemap witness. -/
def inpExample : BuildInput :=
  ⟨siteExample, .jArr [artistJane], none, some [], none, none, envNone⟩

theorem sitemap_spec_witness :
    (renderSitemap envNone siteMinimal (buildArtistsOf inpGood) = ""
        ∧ fsHas (buildSiteFs inpGood []).1 ("sitemap.xml") = false)
      ∧ fsLookup (buildSiteFs inpExample []).1 ("sitemap.xml") =
          some (renderSitemap envNone siteExample (buildArtistsOf inpExample))
      ∧ (renderSitemap envNone siteExample [artistJane] =
            "<?xml version=\"1.0\" encoding=\"UTF-8\"?>\n<urlset xmlns=\"http://www.sitemaps.org/schemas/sitemap/0.9\">\n"
              ++ joinSep ("") ((sitemapUrls [artistJane]).map
                  (fun p => "  <url><loc>https://example.com" ++ p ++ "</loc></url>\n"))
              ++ "</urlset>\n"
            ∧ (sitemapUrls [artistJane]).Nodup
            ∧ ∀ p ∈ sitemapUrls [artistJane], (sitemapUrls [artistJane]).count p = 1) :=
  ⟨sitemap_spec.1 inpGood [] [] (by decide) (by rfl) (by rfl),
    sitemap_spec.2.1 inpExample [] [] (by decide) (by rfl) (by rfl),
    sitemap_spec.2.2 envNone siteExample [artistJane] (by decide) (by decide) (by decide)⟩

theorem fsHas_writeArtistPages_mem (env : Env) (site : Site) :
    ∀ (as : List Artist) (d : DistFs) (a : Artist), a ∈ as →
      fsHas (writeArtistPages env site d as) (artistPagePath a) = true := by
  intro as
  induction as with
  | nil => intro d a ha; exact absurd ha (List.not_mem_nil a)
  | cons b rest ih =>
    intro d a ha
    rcases List.mem_cons.mp ha with h | h
    · subst h
      rw [writeArtistPages]
      apply fsHas_writeArtistPages_mono
      rw [fsHas_fsWrite]
      simp
    · rw [writeArtistPages]
      exact ih _ a h

/-- C4.  One page per artist: a build over a valid artist list succeeds, and
the artist pages present in the output are exactly one per artist, in roster
order, at `artists/<slug>/index.html` keyed by that artist's slug — pairwise
distinct, as many as there are artists — and every artist's page exists and
carries the canonical path `/artists/<slug>/`. -/
theorem artistPages_spec (inp : BuildInput) (d0 t : DistFs)
    (hok : rosterOkFrom [] (buildArtistsOf inp) = true)
    (hassets : inp.assets = some t)
    (hbios : inp.biosAssets = none) :
    (buildSiteFs inp d0).2 = none
      ∧ artistPagesOf (buildSiteFs inp d0).1 = (buildArtistsOf inp).map artistPagePath
      ∧ (artistPagesOf (buildSiteFs inp d0).1).Nodup
      ∧ (artistPagesOf (buildSiteFs inp d0).1).length = (buildArtistsOf inp).length
      ∧ (∀ a ∈ buildArtistsOf inp,
          fsHas (buildSiteFs inp d0).1 (artistPagePath a) = true
            ∧ artistPagePath a = "artists/" ++ slugOf a ++ "/index.html"
            ∧ artistCanonicalPath a = "/artists/" ++ slugOf a ++ "/") := by
  have hv : validateArtists (buildArtistsOf inp) = Except.ok () :=
    (validateArtistsAux_ok_iff _ []).mpr hok
  obtain ⟨hprops, _, _⟩ := rosterOk_props _ [] hok
  have hpagesNodup := artistPagePaths_nodup _ hok
  have hpageTrue : ∀ a ∈ buildArtistsOf inp, isArtistPagePath (artistPagePath a) = true :=
    fun a ha => artistPagePath_isPage a (hprops a ha).1
  have hfix : artistPagesOf (distFixedTop inp t) = [] := artistPagesOf_distFixedTop inp t hbios
  have hfresh : ∀ a ∈ buildArtistsOf inp,
      fsHas (distFixedTop inp t) (artistPagePath a) = false := by
    intro a ha
    cases hf : fsHas (distFixedTop inp t) (artistPagePath a) with
    | false => rfl
    | true =>
      obtain ⟨e, he, hep⟩ := (fsHas_true_iff _ _).mp hf
      have hmem : e.1 ∈ artistPagesOf (distFixedTop inp t) :=
        List.mem_map_of_mem _ (List.mem_filter.mpr ⟨he, by rw [hep]; exact hpageTrue a ha⟩)
      rw [hfix] at hmem
      exact absurd hmem (List.not_mem_nil _)
  have hmain : artistPagesOf (distFinal inp t) = (buildArtistsOf inp).map artistPagePath := by
    rw [artistPagesOf_distFinal]
    unfold distArtistsDone
    rw [artistPagesOf_writeArtistPages inp.env inp.site _ _ hpageTrue hpagesNodup hfresh,
      hfix, List.nil_append]
  refine ⟨buildSiteFs_ok2 inp d0 t hv hassets, ?_, ?_, ?_, ?_⟩
  · rw [buildSiteFs_ok1 inp d0 t hv hassets]
    exact hmain
  · rw [buildSiteFs_ok1 inp d0 t hv hassets, hmain]
    exact hpagesNodup
  · rw [buildSiteFs_ok1 inp d0 t hv hassets, hmain]
    exact List.length_map _ _
  · intro a ha
    refine ⟨?_, artistPagePath_eq a (hprops a ha).1, ?_⟩
    · rw [buildSiteFs_ok1 inp d0 t hv hassets]
      apply fsHas_distFinal_mono
      unfold distArtistsDone
      exact fsHas_writeArtistPages_mem inp.env inp.site _ _ a ha
    · unfold artistCanonicalPath
      rw [(truthy_slug_facts a (hprops a ha).1).1]

/-- Build input with two valid artists, for the C4 witness. -/
def inpTwo : BuildInput :=
  ⟨siteMinimal, .jArr [artistJane, artistAna], none, some [], none, none, envNone⟩

theorem artistPages_spec_witness :
    (buildSiteFs inpTwo []).2 = none
      ∧ artistPagesOf (buildSiteFs inpTwo []).1 = (buildArtistsOf inpTwo).map artistPagePath
      ∧ (artistPagesOf (buildSiteFs inpTwo []).1).Nodup
      ∧ (artistPagesOf (buildSiteFs inpTwo []).1).length = (buildArtistsOf inpTwo).length
      ∧ (∀ a ∈ buildArtistsOf inpTwo,
          fsHas (buildSiteFs inpTwo []).1 (artistPagePath a) = true
            ∧ artistPagePath a = "artists/" ++ slugOf a ++ "/index.html"
            ∧ artistCanonicalPath a = "/artists/" ++ slugOf a ++ "/") :=
  artistPages_spec inpTwo [] [] (by decide) (by rfl) (by rfl)

end AltmanArtists
